import Mathlib

/-!
Shallow embedding of the tRPC e-commerce backend (Prisma schema
`prisma/schema.prisma`, routers `src/server/api/routers/{product,cart}.ts`
and the order router, middleware `src/server/api/trpc.ts`).

Conventions of the embedding:
* The relational database is a record of lists of rows; autoincrement
  primary keys are modelled by `next…Id` counters (Prisma `cuid()` cart
  ids are likewise modelled by a counter).
* JavaScript numbers carrying integers (ids, quantities, stock) are
  modelled as `Int`; the `Float` money columns (`price`, `totalAmount`,
  `priceAtPurchase`) are modelled as `ℚ`.
* A tRPC procedure is a function `DB → DB × Except TRPCError α`; a
  Prisma `$transaction` is a runner that keeps the original `DB` when
  the body fails (rollback).
* Zod input parsing, which tRPC performs after the middleware chain and
  reports as a `BAD_REQUEST` error, is the leading `if` of each body.
* Timestamp columns (`createdAt`/`updatedAt`) play no role in any claim
  and are omitted from the row types.
-/

/-- `enum RoleName` of `prisma/schema.prisma`. -/
inductive RoleName where
  | SUPER_ADMIN
  | ADMIN
  | SELLER
  | CUSTOMER
deriving DecidableEq, Repr

/-- `enum OrderStatus` of `prisma/schema.prisma`. -/
inductive OrderStatus where
  | PENDING
  | PROCESSING
  | SHIPPED
  | DELIVERED
  | CANCELLED
  | FAILED
deriving DecidableEq, Repr

/-- tRPC error codes used by the routers and middleware. -/
inductive TRPCErrorCode where
  | UNAUTHORIZED
  | FORBIDDEN
  | BAD_REQUEST
  | NOT_FOUND
  | INTERNAL_SERVER_ERROR
deriving DecidableEq, Repr

/-- A `TRPCError` as thrown by the routers: a code plus a message. -/
structure TRPCError where
  code : TRPCErrorCode
  message : String
deriving DecidableEq, Repr

/-- Row of `model Product` (`prisma/schema.prisma`). -/
structure Product where
  id : Int
  name : String
  description : String
  price : ℚ
  imageUrl : Option String
  stock : Int
  createdById : String
deriving DecidableEq, Repr

/-- Row of `model Order` (`prisma/schema.prisma`); payment/address
columns are defaulted/null at creation and omitted. -/
structure OrderRow where
  id : Int
  userId : String
  totalAmount : ℚ
  status : OrderStatus
deriving DecidableEq, Repr

/-- Row of `model OrderItem` (`prisma/schema.prisma`). -/
structure OrderItemRow where
  id : Int
  orderId : Int
  productId : Int
  quantity : Int
  priceAtPurchase : ℚ
deriving DecidableEq, Repr

/-- Row of `model Cart` (`prisma/schema.prisma`), its `cuid` id
modelled as an `Int` drawn from a counter. -/
structure CartRow where
  id : Int
  userId : String
deriving DecidableEq, Repr

/-- Row of `model CartItem` (`prisma/schema.prisma`). -/
structure CartItemRow where
  id : Int
  cartId : Int
  productId : Int
  quantity : Int
deriving DecidableEq, Repr

/-- The relational database state: one list of rows per model touched
by the verified routers, plus fresh-id counters. -/
structure DB where
  products : List Product
  orders : List OrderRow
  orderItems : List OrderItemRow
  carts : List CartRow
  cartItems : List CartItemRow
  nextProductId : Int
  nextOrderId : Int
  nextOrderItemId : Int
  nextCartId : Int
  nextCartItemId : Int
deriving DecidableEq, Repr

/-- Result of `ctx.getUserFromToken()` (`src/server/api/trpc.ts`):
`userId` is `none` exactly when the header token is missing or fails
Firebase verification. -/
structure UserContext where
  userId : Option String
  roles : List RoleName
deriving DecidableEq, Repr

/-- The `x-firebase-token` header as the middleware sees it: absent,
present but failing verification, or verifying to a Firebase uid. -/
inductive TokenState where
  | missing
  | invalid
  | valid (uid : String)
deriving DecidableEq, Repr

/-- `createTRPCContext`/`getUserFromToken` (`src/server/api/trpc.ts`):
a missing or unverifiable token yields `{ userId: null, roles: [] }`;
a verified token yields the uid and the user's roles from the DB. -/
def getUserFromToken (t : TokenState) (rolesOf : String → List RoleName) : UserContext :=
  match t with
  | .missing => ⟨none, []⟩
  | .invalid => ⟨none, []⟩
  | .valid uid => ⟨some uid, rolesOf uid⟩

/-- The body of a procedure, run after the middleware chain: it
receives the verified `userId` and `roles` and acts on the database. -/
def ProcBody (α : Type) : Type := String → List RoleName → DB → DB × Except TRPCError α

/-- `enforceUserIsAuthed` middleware (`src/server/api/trpc.ts`
lines 153-169): throw `UNAUTHORIZED` when `user.userId` is null,
otherwise attach the user to the context and continue. -/
def runProtected (db : DB) (user : UserContext) (body : ProcBody α) :
    DB × Except TRPCError α :=
  match user.userId with
  | none => (db, .error ⟨.UNAUTHORIZED, "Not authenticated"⟩)
  | some uid => body uid user.roles db

/-- `allowedRoles.some(role => userRoles.includes(role))`
(`src/server/api/trpc.ts` line 186). -/
def hasAccess (allowedRoles userRoles : List RoleName) : Bool :=
  allowedRoles.any (fun role => userRoles.contains role)

/-- `createRoleBasedProcedure` (`src/server/api/trpc.ts` lines 181-197):
authentication middleware first, then the role-allowlist check, which
throws `FORBIDDEN` when no allowed role is held. -/
def runRoleBased (allowedRoles : List RoleName) (db : DB) (user : UserContext)
    (body : ProcBody α) : DB × Except TRPCError α :=
  runProtected db user (fun uid roles db' =>
    if hasAccess allowedRoles roles then
      body uid roles db'
    else
      (db', .error ⟨.FORBIDDEN, "User does not have required role(s)"⟩))

/-- `customerProcedure = protectedProcedure` (`src/server/api/trpc.ts` line 200). -/
def runCustomer (db : DB) (user : UserContext) (body : ProcBody α) :
    DB × Except TRPCError α :=
  runProtected db user body

/-- `sellerProcedure` (`src/server/api/trpc.ts` line 201). -/
def runSeller (db : DB) (user : UserContext) (body : ProcBody α) :
    DB × Except TRPCError α :=
  runRoleBased [RoleName.SELLER, RoleName.ADMIN, RoleName.SUPER_ADMIN] db user body

/-- `adminProcedure` (`src/server/api/trpc.ts` line 202). -/
def runAdmin (db : DB) (user : UserContext) (body : ProcBody α) :
    DB × Except TRPCError α :=
  runRoleBased [RoleName.ADMIN, RoleName.SUPER_ADMIN] db user body

/-- `superAdminProcedure` (`src/server/api/trpc.ts` line 203). -/
def runSuperAdmin (db : DB) (user : UserContext) (body : ProcBody α) :
    DB × Except TRPCError α :=
  runRoleBased [RoleName.SUPER_ADMIN] db user body

/-- `OrderItemInput` zod schema of the order router:
`{ productId: z.number().int().positive(), quantity: z.number().int().positive() }`. -/
structure OrderItemInput where
  productId : Int
  quantity : Int
deriving DecidableEq, Repr

/-- The zod checks of `OrderItemInput`. -/
def OrderItemInput.isValid (i : OrderItemInput) : Bool :=
  decide (0 < i.productId) && decide (0 < i.quantity)

/-- `CreateOrderInput` zod schema: a non-empty array of `OrderItemInput`. -/
structure CreateOrderInput where
  items : List OrderItemInput
deriving DecidableEq, Repr

/-- The zod checks of `CreateOrderInput` (`min(1)` plus per-item checks). -/
def CreateOrderInput.isValid (input : CreateOrderInput) : Bool :=
  decide (1 ≤ input.items.length) && input.items.all OrderItemInput.isValid

/-- One element of the router's `orderItemsData` array
(`{ productId: number; quantity: number; price: number }`); its `price`
key carries the product's catalog price at the time of the call and is
stored into the schema's `priceAtPurchase` column. -/
structure OrderItemData where
  productId : Int
  quantity : Int
  price : ℚ
deriving DecidableEq, Repr

/-- The validation/total loop of `orderRouter.create` (step 2): walk the
input items in order; for each, look the product up in the fetched
`products`, throw `INTERNAL_SERVER_ERROR` if absent, throw `BAD_REQUEST`
if `product.stock < item.quantity`, otherwise accumulate
`totalAmount += product.price * item.quantity` and push
`{ productId, quantity, price: product.price }` onto `orderItemsData`. -/
def computeOrderItems (products : List Product) (totalAmount : ℚ)
    (orderItemsData : List OrderItemData) :
    List OrderItemInput → Except TRPCError (ℚ × List OrderItemData)
  | [] => .ok (totalAmount, orderItemsData)
  | item :: rest =>
    match products.find? (fun p => p.id == item.productId) with
    | none =>
      .error ⟨.INTERNAL_SERVER_ERROR, "Product not found after initial fetch."⟩
    | some product =>
      if product.stock < item.quantity then
        .error ⟨.BAD_REQUEST, "Insufficient stock for product: " ++ product.name⟩
      else
        computeOrderItems products
          (totalAmount + product.price * (item.quantity : ℚ))
          (orderItemsData ++ [⟨item.productId, item.quantity, product.price⟩]) rest

/-- `ctx.db.$transaction(async (tx) => ...)`: the callback's writes
persist only if it returns successfully; on any failure inside the
callback every write is rolled back and the database is unchanged. -/
def dbTransaction (db : DB) (body : DB → Except TRPCError (DB × α)) :
    DB × Except TRPCError α :=
  match body db with
  | .ok (db', a) => (db', .ok a)
  | .error e => (db, .error e)

/-- The nested `orderItems: { createMany: { data: orderItemsData } }`:
one `OrderItem` row per data element, ids drawn from the autoincrement
counter; each data element's `price` value lands in the row's
`priceAtPurchase` column. -/
def createManyOrderItems (orderId nextId : Int) :
    List OrderItemData → List OrderItemRow
  | [] => []
  | d :: ds =>
    ⟨nextId, orderId, d.productId, d.quantity, d.price⟩ ::
      createManyOrderItems orderId (nextId + 1) ds

/-- Step 3b of `orderRouter.create`: for each input item,
`tx.product.update({ where: { id }, data: { stock: { decrement: quantity } } })`. -/
def decrementStock (items : List OrderItemInput) (db : DB) : DB :=
  items.foldl
    (fun acc item =>
      { acc with
        products := acc.products.map (fun p =>
          if p.id == item.productId then
            { p with stock := p.stock - item.quantity }
          else p) })
    db

/-- Body of `orderRouter.create` (order router, lines 138-218): fetch
the requested products, require as many rows as requested ids, validate
stock and compute the total, then in one transaction create the order
with its items and decrement each product's stock. -/
def orderCreateBody (input : CreateOrderInput) : ProcBody OrderRow :=
  fun userId _roles db =>
    if !input.isValid then
      (db, .error ⟨.BAD_REQUEST, "Invalid input"⟩)
    else
      let items := input.items
      let productIds := items.map (·.productId)
      let products := db.products.filter (fun p => productIds.contains p.id)
      if products.length ≠ productIds.length then
        (db, .error ⟨.BAD_REQUEST, "One or more products not found"⟩)
      else
        match computeOrderItems products 0 [] items with
        | .error e => (db, .error e)
        | .ok (totalAmount, orderItemsData) =>
          dbTransaction db (fun txdb =>
            let order : OrderRow := ⟨txdb.nextOrderId, userId, totalAmount, .PENDING⟩
            let newItems := createManyOrderItems order.id txdb.nextOrderItemId orderItemsData
            let txdb1 :=
              { txdb with
                orders := txdb.orders ++ [order]
                orderItems := txdb.orderItems ++ newItems
                nextOrderId := txdb.nextOrderId + 1
                nextOrderItemId := txdb.nextOrderItemId + (orderItemsData.length : Int) }
            .ok (decrementStock items txdb1, order))

/-- `orderRouter.create` as exposed: a `customerProcedure` mutation. -/
def orderCreate (db : DB) (user : UserContext) (input : CreateOrderInput) :
    DB × Except TRPCError OrderRow :=
  runCustomer db user (orderCreateBody input)

/-- `ProductInput` zod schema (`src/server/api/routers/product.ts`
lines 13-19): name at least 3 characters, description at least 10,
positive price, optional image url, integer stock at least 0 (default
0, applied before the body runs). The `z.string().url()` format check
carries no content relevant to any claim and is not modelled. -/
structure ProductInput where
  name : String
  description : String
  price : ℚ
  imageUrl : Option String
  stock : Int
deriving DecidableEq, Repr

/-- The zod checks of `ProductInput`. -/
def ProductInput.isValid (i : ProductInput) : Bool :=
  decide (3 ≤ i.name.length) && decide (10 ≤ i.description.length) &&
    decide (0 < i.price) && decide (0 ≤ i.stock)

/-- `ProductUpdateInput = ProductInput.partial().extend({ id })`:
every field optional except the positive-integer `id`. -/
structure ProductUpdateInput where
  id : Int
  name : Option String
  description : Option String
  price : Option ℚ
  imageUrl : Option String
  stock : Option Int
deriving DecidableEq, Repr

/-- The zod checks of `ProductUpdateInput`: each present field must
satisfy the corresponding `ProductInput` check. -/
def ProductUpdateInput.isValid (i : ProductUpdateInput) : Bool :=
  decide (0 < i.id) &&
    i.name.all (fun n => decide (3 ≤ n.length)) &&
    i.description.all (fun d => decide (10 ≤ d.length)) &&
    i.price.all (fun p => decide (0 < p)) &&
    i.stock.all (fun s => decide (0 ≤ s))

/-- The update data `{ ...updateData, imageUrl: updateData.imageUrl ?? null }`
of `productRouter.update` applied to the existing row: present fields
overwrite, absent fields keep the row's value — except `imageUrl`,
which the explicit `?? null` always writes (null when absent). -/
def applyProductUpdate (input : ProductUpdateInput) (p : Product) : Product :=
  { p with
    name := input.name.getD p.name
    description := input.description.getD p.description
    price := input.price.getD p.price
    imageUrl := input.imageUrl
    stock := input.stock.getD p.stock }

/-- Body of `productRouter.add` (`product.ts` lines 27-41): create a
product owned by the caller (`createdById: userId`). -/
def productAddBody (input : ProductInput) : ProcBody Product :=
  fun userId _roles db =>
    if !input.isValid then
      (db, .error ⟨.BAD_REQUEST, "Invalid input"⟩)
    else
      let product : Product :=
        ⟨db.nextProductId, input.name, input.description, input.price,
          input.imageUrl, input.stock, userId⟩
      ({ db with
          products := db.products ++ [product]
          nextProductId := db.nextProductId + 1 },
        .ok product)

/-- `productRouter.add` as exposed: a `sellerProcedure` mutation. -/
def productAdd (db : DB) (user : UserContext) (input : ProductInput) :
    DB × Except TRPCError Product :=
  runSeller db user (productAddBody input)

/-- Body of `productRouter.update` (`product.ts` lines 80-116): find
the product (`NOT_FOUND` if absent); admins and super-admins may update
any product, sellers only their own (`FORBIDDEN` otherwise); then apply
the update. -/
def productUpdateBody (input : ProductUpdateInput) : ProcBody Product :=
  fun userId roles db =>
    if !input.isValid then
      (db, .error ⟨.BAD_REQUEST, "Invalid input"⟩)
    else
      match db.products.find? (fun p => p.id == input.id) with
      | none => (db, .error ⟨.NOT_FOUND, "Product not found"⟩)
      | some existingProduct =>
        let isAdminOrSuperAdmin :=
          roles.contains RoleName.ADMIN || roles.contains RoleName.SUPER_ADMIN
        let isOwner := existingProduct.createdById == userId
        if !isAdminOrSuperAdmin && !isOwner then
          (db, .error ⟨.FORBIDDEN, "You do not have permission to update this product"⟩)
        else
          ({ db with
              products := db.products.map (fun p =>
                if p.id == input.id then applyProductUpdate input p else p) },
            .ok (applyProductUpdate input existingProduct))

/-- `productRouter.update` as exposed: a `sellerProcedure` mutation. -/
def productUpdate (db : DB) (user : UserContext) (input : ProductUpdateInput) :
    DB × Except TRPCError Product :=
  runSeller db user (productUpdateBody input)

/-- Body of `productRouter.delete` (`product.ts` lines 119-152): same
existence and permission checks as `update`, then delete the row. The
schema's `onDelete: Cascade` on `CartItem.product` removes the
product's cart items with the delete, while `OrderItem.product`
declares no referential action (Prisma's default `Restrict`), so the
database refuses to delete a product referenced by any order item: the
router has no try/catch here and the foreign-key violation surfaces as
an unhandled (internal) error with nothing changed. -/
def productDeleteBody (id : Int) : ProcBody Bool :=
  fun userId roles db =>
    if !(decide (0 < id)) then
      (db, .error ⟨.BAD_REQUEST, "Invalid input"⟩)
    else
      match db.products.find? (fun p => p.id == id) with
      | none => (db, .error ⟨.NOT_FOUND, "Product not found"⟩)
      | some existingProduct =>
        let isAdminOrSuperAdmin :=
          roles.contains RoleName.ADMIN || roles.contains RoleName.SUPER_ADMIN
        let isOwner := existingProduct.createdById == userId
        if !isAdminOrSuperAdmin && !isOwner then
          (db, .error ⟨.FORBIDDEN, "You do not have permission to delete this product"⟩)
        else if db.orderItems.any (fun oi => oi.productId == id) then
          (db, .error ⟨.INTERNAL_SERVER_ERROR,
            "Foreign key constraint violated on OrderItem.product"⟩)
        else
          ({ db with
              products := db.products.filter (fun p => !(p.id == id))
              cartItems := db.cartItems.filter (fun ci => !(ci.productId == id)) },
            .ok true)

/-- `productRouter.delete` as exposed: a `sellerProcedure` mutation. -/
def productDelete (db : DB) (user : UserContext) (id : Int) :
    DB × Except TRPCError Bool :=
  runSeller db user (productDeleteBody id)

/-- The `db.cart.upsert({ where: { userId }, create: { userId }, update: {} })`
of `cartRouter.addItem`: return the user's cart, creating it first when
none exists (the empty `update` writes nothing). -/
def upsertCart (db : DB) (userId : String) : DB × CartRow :=
  match db.carts.find? (fun c => c.userId == userId) with
  | some cart => (db, cart)
  | none =>
    let cart : CartRow := ⟨db.nextCartId, userId⟩
    ({ db with carts := db.carts ++ [cart], nextCartId := db.nextCartId + 1 }, cart)

/-- Body of `cartRouter.getCart` (`cart.ts` lines 20-68): fetch the
user's cart, creating one when absent (`cart ??= db.cart.create`). The
response shaping (items with products, computed `total`, filtering of
items whose product is gone) is read-only and the returned value here
is the cart row itself. -/
def getCartBody : ProcBody CartRow :=
  fun userId _roles db =>
    match db.carts.find? (fun c => c.userId == userId) with
    | some cart => (db, .ok cart)
    | none =>
      let cart : CartRow := ⟨db.nextCartId, userId⟩
      ({ db with carts := db.carts ++ [cart], nextCartId := db.nextCartId + 1 },
        .ok cart)

/-- `cartRouter.getCart` as exposed: a `protectedProcedure` query. -/
def cartGetCart (db : DB) (user : UserContext) : DB × Except TRPCError CartRow :=
  runProtected db user getCartBody

/-- Body of `cartRouter.addItem` (`cart.ts` lines 73-127): upsert the
user's cart, require the product to exist (`NOT_FOUND` otherwise), then
`db.cartItem.upsert` on the compound unique key `(cartId, productId)`:
create the item with the given quantity when absent, otherwise
atomically increment its quantity. -/
def cartAddItemBody (productId quantity : Int) : ProcBody CartItemRow :=
  fun userId _roles db =>
    if !(decide (1 ≤ quantity)) then
      (db, .error ⟨.BAD_REQUEST, "Quantity must be at least 1"⟩)
    else
      match upsertCart db userId with
      | (db1, cart) =>
        match db1.products.find? (fun p => p.id == productId) with
        | none => (db1, .error ⟨.NOT_FOUND, "Product not found."⟩)
        | some _ =>
          match db1.cartItems.find? (fun ci =>
              ci.cartId == cart.id && ci.productId == productId) with
          | some existing =>
            ({ db1 with
                cartItems := db1.cartItems.map (fun ci =>
                  if ci.cartId == cart.id && ci.productId == productId then
                    { ci with quantity := ci.quantity + quantity }
                  else ci) },
              .ok { existing with quantity := existing.quantity + quantity })
          | none =>
            let newItem : CartItemRow := ⟨db1.nextCartItemId, cart.id, productId, quantity⟩
            ({ db1 with
                cartItems := db1.cartItems ++ [newItem]
                nextCartItemId := db1.nextCartItemId + 1 },
              .ok newItem)

/-- `cartRouter.addItem` as exposed: a `protectedProcedure` mutation. -/
def cartAddItem (db : DB) (user : UserContext) (productId quantity : Int) :
    DB × Except TRPCError CartItemRow :=
  runProtected db user (cartAddItemBody productId quantity)

/-- Body of `cartRouter.updateItemQuantity` (`cart.ts` lines 132-173):
`findFirst` the item by id restricted to the caller's cart (`NOT_FOUND`
when absent or foreign), then set its quantity. -/
def cartUpdateItemQuantityBody (cartItemId quantity : Int) : ProcBody CartItemRow :=
  fun userId _roles db =>
    if !(decide (1 ≤ quantity)) then
      (db, .error ⟨.BAD_REQUEST, "Quantity must be at least 1"⟩)
    else
      match db.cartItems.find? (fun ci => ci.id == cartItemId &&
          (db.carts.find? (fun c => c.id == ci.cartId)).any
            (fun c => c.userId == userId)) with
      | none =>
        (db, .error ⟨.NOT_FOUND, "Cart item not found or does not belong to the user."⟩)
      | some item =>
        ({ db with
            cartItems := db.cartItems.map (fun ci =>
              if ci.id == cartItemId then { ci with quantity := quantity } else ci) },
          .ok { item with quantity := quantity })

/-- `cartRouter.updateItemQuantity` as exposed: a `protectedProcedure` mutation. -/
def cartUpdateItemQuantity (db : DB) (user : UserContext) (cartItemId quantity : Int) :
    DB × Except TRPCError CartItemRow :=
  runProtected db user (cartUpdateItemQuantityBody cartItemId quantity)

/-- Body of `cartRouter.removeItem` (`cart.ts` lines 178-220): find the
item with its cart (`NOT_FOUND` when absent; the required `cart`
relation always resolves under foreign-key integrity, and a dangling
`cartId` surfaces as an internal error), require the cart to belong to
the caller (`FORBIDDEN` otherwise), then delete the item. -/
def cartRemoveItemBody (cartItemId : Int) : ProcBody CartItemRow :=
  fun userId _roles db =>
    match db.cartItems.find? (fun ci => ci.id == cartItemId) with
    | none => (db, .error ⟨.NOT_FOUND, "Cart item not found"⟩)
    | some cartItem =>
      match db.carts.find? (fun c => c.id == cartItem.cartId) with
      | none => (db, .error ⟨.INTERNAL_SERVER_ERROR, "Cart relation missing"⟩)
      | some cart =>
        if !(cart.userId == userId) then
          (db, .error ⟨.FORBIDDEN, "You do not have permission to remove this item"⟩)
        else
          ({ db with
              cartItems := db.cartItems.filter (fun ci => !(ci.id == cartItemId)) },
            .ok cartItem)

/-- `cartRouter.removeItem` as exposed: a `protectedProcedure` mutation. -/
def cartRemoveItem (db : DB) (user : UserContext) (cartItemId : Int) :
    DB × Except TRPCError CartItemRow :=
  runProtected db user (cartRemoveItemBody cartItemId)

/-- Body of `cartRouter.clearCart` (`cart.ts` lines 225-247): delete
every item of the caller's cart; with no cart there is nothing to clear. -/
def cartClearBody : ProcBody Bool :=
  fun userId _roles db =>
    match db.carts.find? (fun c => c.userId == userId) with
    | none => (db, .ok true)
    | some cart =>
      ({ db with
          cartItems := db.cartItems.filter (fun ci => !(ci.cartId == cart.id)) },
        .ok true)

/-- `cartRouter.clearCart` as exposed: a `protectedProcedure` mutation. -/
def cartClearCart (db : DB) (user : UserContext) : DB × Except TRPCError Bool :=
  runProtected db user cartClearBody

/-- The catalog price of the product with id `pid` in a product table
(0 for a missing product; only ever used where the product exists). -/
def lookupPrice (products : List Product) (pid : Int) : ℚ :=
  match products.find? (fun p => p.id == pid) with
  | some p => p.price
  | none => 0

/-- Total quantity requested for product `pid` across the input items. -/
def qtyOf (items : List OrderItemInput) (pid : Int) : Int :=
  ((items.filter (fun it => it.productId == pid)).map (·.quantity)).sum

deriving instance DecidableEq for Except

/-- A small concrete database used by the witness theorems: two
products, no carts, no orders. -/
def testDB : DB where
  products :=
    [⟨1, "Widget", "A very fine widget", 5, none, 10, "seller1"⟩,
     ⟨2, "Gadget", "A very fine gadget", 7/2, none, 3, "seller1"⟩]
  orders := []
  orderItems := []
  carts := []
  cartItems := []
  nextProductId := 3
  nextOrderId := 1
  nextOrderItemId := 1
  nextCartId := 1
  nextCartItemId := 1

/-- The state of `testDB` after the witness order: stock of product 1
decremented from 10 to 8, one order and one order item created. -/
def testDBAfterOrder : DB where
  products :=
    [⟨1, "Widget", "A very fine widget", 5, none, 8, "seller1"⟩,
     ⟨2, "Gadget", "A very fine gadget", 7/2, none, 3, "seller1"⟩]
  orders := [⟨1, "cust", 10, .PENDING⟩]
  orderItems := [⟨1, 1, 1, 2, 5⟩]
  carts := []
  cartItems := []
  nextProductId := 3
  nextOrderId := 2
  nextOrderItemId := 2
  nextCartId := 1
  nextCartItemId := 1

/-- Quantity recorded for product `pid` in user `uid`'s cart: `none`
when the user has no cart or no item for that product. -/
def cartQuantity (db : DB) (uid : String) (pid : Int) : Option Int :=
  match db.carts.find? (fun c => c.userId == uid) with
  | none => none
  | some cart =>
    (db.cartItems.find? (fun ci =>
      ci.cartId == cart.id && ci.productId == pid)).map (fun ci => ci.quantity)

/-- Reachable-state facts the cart proofs use: every cart item's cart
row exists (foreign-key integrity) and cart ids are below the
freshness counter (ids are never reused). -/
structure DB.WF (db : DB) : Prop where
  itemCartExists : ∀ ci ∈ db.cartItems, ∃ c ∈ db.carts, c.id = ci.cartId
  cartIdLt : ∀ c ∈ db.carts, c.id < db.nextCartId

/-- The `@@unique([cartId, productId])` constraint of `CartItem`: a
product appears at most once per cart. -/
def cartKeyUnique (db : DB) : Prop :=
  db.cartItems.Pairwise (fun a b => a.cartId ≠ b.cartId ∨ a.productId ≠ b.productId)

/-- Every product's stock is non-negative. -/
def stocksNonneg (db : DB) : Prop := ∀ p ∈ db.products, 0 ≤ p.stock

section ListLemmas

variable {α : Type}

theorem find_filter_eq (l : List α) (p q : α → Bool)
    (h : ∀ x, p x = true → q x = true) :
    (l.filter q).find? p = l.find? p := by
  induction l with
  | nil => rfl
  | cons a t ih =>
    by_cases hq : q a = true
    · rw [List.filter_cons_of_pos hq]
      by_cases hp : p a = true
      · rw [List.find?_cons_of_pos _ hp, List.find?_cons_of_pos _ hp]
      · rw [List.find?_cons_of_neg _ hp, List.find?_cons_of_neg _ hp, ih]
    · have hp : ¬ p a = true := fun hpa => hq (h a hpa)
      rw [List.filter_cons_of_neg hq, ih, List.find?_cons_of_neg _ hp]

theorem find_map_eq (l : List α) (p : α → Bool) (f : α → α)
    (h : ∀ x, p (f x) = p x) :
    (l.map f).find? p = (l.find? p).map f := by
  induction l with
  | nil => rfl
  | cons a t ih =>
    by_cases hp : p a = true
    · rw [List.map_cons, List.find?_cons_of_pos _ (by rw [h]; exact hp),
        List.find?_cons_of_pos _ hp, Option.map_some']
    · rw [List.map_cons, List.find?_cons_of_neg _ (by rw [h]; exact hp),
        List.find?_cons_of_neg _ hp, ih]

theorem find_of_mem_of_nodup {l : List α} {key : α → Int} {x : α}
    (hnd : (l.map key).Nodup) (hx : x ∈ l) :
    l.find? (fun a => key a == key x) = some x := by
  induction l with
  | nil => cases hx
  | cons a t ih =>
    rw [List.map_cons, List.nodup_cons] at hnd
    rcases List.mem_cons.mp hx with rfl | hxt
    · exact List.find?_cons_of_pos _ (by simp)
    · have hne : key a ≠ key x := by
        intro he
        exact hnd.1 (he ▸ List.mem_map_of_mem key hxt)
      rw [List.find?_cons_of_neg _ (by simp [hne]), ih hnd.2 hxt]

end ListLemmas

/-- If the `findMany` over the requested ids returns as many rows as
ids were requested (the router's length check), then — product ids
being unique — the requested ids are pairwise distinct and every one of
them names an existing product. -/
theorem filter_length_eq_nodup_and_mem {l : List Product} {ids : List Int}
    (hnd : (l.map Product.id).Nodup)
    (hlen : (l.filter (fun p => ids.contains p.id)).length = ids.length) :
    ids.Nodup ∧ ∀ x ∈ ids, ∃ p ∈ l, p.id = x := by
  set fl := l.filter (fun p => ids.contains p.id) with hfl
  have hsub : fl.Sublist l := List.filter_sublist l
  have hfids_nodup : (fl.map Product.id).Nodup :=
    List.Nodup.sublist (List.Sublist.map Product.id hsub) hnd
  have hmem : ∀ x ∈ fl.map Product.id, x ∈ ids := by
    intro x hx
    rcases List.mem_map.mp hx with ⟨p, hp, rfl⟩
    exact List.elem_iff.mp (List.mem_filter.mp hp).2
  have hsubset : (fl.map Product.id) ⊆ ids.dedup := fun x hx =>
    List.mem_dedup.mpr (hmem x hx)
  have hsp : (fl.map Product.id).Subperm ids.dedup :=
    hfids_nodup.subperm hsubset
  have hlen2 : ids.length ≤ ids.dedup.length := by
    have h1 := hsp.length_le
    rwa [List.length_map, hlen] at h1
  have hdedup_len : ids.dedup.length = ids.length :=
    le_antisymm (List.Sublist.length_le (List.dedup_sublist ids)) hlen2
  have hids_eq : ids.dedup = ids :=
    List.Sublist.eq_of_length (List.dedup_sublist ids) hdedup_len
  have hids_nodup : ids.Nodup := hids_eq ▸ List.nodup_dedup ids
  refine ⟨hids_nodup, ?_⟩
  intro x hxids
  by_contra hno
  push_neg at hno
  have hx_ne : ∀ y ∈ fl.map Product.id, y ≠ x := by
    intro y hy hyx
    rcases List.mem_map.mp hy with ⟨p, hp, rfl⟩
    exact hno p (List.mem_filter.mp hp).1 hyx
  have hsubset2 : (fl.map Product.id) ⊆ ids.dedup.erase x := by
    intro y hy
    exact (List.mem_erase_of_ne (hx_ne y hy)).mpr (hsubset hy)
  have hsp2 := (hfids_nodup.subperm hsubset2).length_le
  have hxdedup : x ∈ ids.dedup := List.mem_dedup.mpr hxids
  have herase : (ids.dedup.erase x).length = ids.dedup.length - 1 :=
    List.length_erase_of_mem hxdedup
  have hpos : 0 < ids.dedup.length := List.length_pos_of_mem hxdedup
  rw [List.length_map, hlen] at hsp2
  omega

/-- Success of the validation/total loop: the total is the sum of
price times quantity over the items, the data records one entry per
item carrying the product's current price, and every item's quantity
is within the found product's stock. -/
theorem computeOrderItems_ok {products : List Product}
    {items : List OrderItemInput} {t : ℚ} {acc : List OrderItemData}
    {total : ℚ} {data : List OrderItemData}
    (h : computeOrderItems products t acc items = .ok (total, data)) :
    total = t + (items.map (fun it =>
        lookupPrice products it.productId * (it.quantity : ℚ))).sum ∧
    data = acc ++ items.map (fun it =>
        ⟨it.productId, it.quantity, lookupPrice products it.productId⟩) ∧
    ∀ it ∈ items, ∃ p, products.find? (fun q => q.id == it.productId) = some p ∧
      it.quantity ≤ p.stock := by
  induction items generalizing t acc with
  | nil =>
    simp only [computeOrderItems, Except.ok.injEq, Prod.mk.injEq] at h
    obtain ⟨rfl, rfl⟩ := h
    simp
  | cons item rest ih =>
    cases hf : products.find? (fun p => p.id == item.productId) with
    | none =>
      simp only [computeOrderItems, hf] at h
      cases h
    | some product =>
      simp only [computeOrderItems, hf] at h
      by_cases hst : product.stock < item.quantity
      · rw [if_pos hst] at h; cases h
      · rw [if_neg hst] at h
        obtain ⟨ht, hd, hall⟩ := ih h
        have hlp : lookupPrice products item.productId = product.price := by
          simp [lookupPrice, hf]
        refine ⟨?_, ?_, ?_⟩
        · rw [ht, List.map_cons, List.sum_cons, hlp]; ring
        · rw [hd, List.map_cons, hlp, List.append_cons, List.append_assoc]
          simp
        · intro it hit
          rcases List.mem_cons.mp hit with rfl | h2
          · exact ⟨product, hf, le_of_not_lt hst⟩
          · exact hall it h2

theorem qtyOf_eq_zero {items : List OrderItemInput} {pid : Int}
    (h : ∀ it ∈ items, it.productId ≠ pid) : qtyOf items pid = 0 := by
  unfold qtyOf
  have : items.filter (fun it => it.productId == pid) = [] := by
    rw [List.filter_eq_nil_iff]
    intro it hit
    simp [h it hit]
  rw [this]
  rfl

theorem qtyOf_cons (x : OrderItemInput) (items : List OrderItemInput) (pid : Int) :
    qtyOf (x :: items) pid =
      (if x.productId = pid then x.quantity else 0) + qtyOf items pid := by
  unfold qtyOf
  by_cases hx : x.productId = pid
  · rw [List.filter_cons_of_pos (by simp [hx]), List.map_cons, List.sum_cons, if_pos hx]
  · rw [List.filter_cons_of_neg (by simp [hx]), if_neg hx, zero_add]

/-- With pairwise-distinct product ids among the items, the total
requested quantity for an item's product is that item's quantity. -/
theorem qtyOf_eq_of_nodup {items : List OrderItemInput} {it : OrderItemInput}
    (hnd : (items.map (·.productId)).Nodup) (hit : it ∈ items) :
    qtyOf items it.productId = it.quantity := by
  induction items with
  | nil => cases hit
  | cons x rest ih =>
    rw [List.map_cons, List.nodup_cons] at hnd
    rcases List.mem_cons.mp hit with rfl | h2
    · rw [qtyOf_cons, if_pos rfl,
        qtyOf_eq_zero (fun i hi he => hnd.1 (by rw [← he]; exact List.mem_map_of_mem _ hi)),
        add_zero]
    · have hne : x.productId ≠ it.productId := fun he =>
        hnd.1 (he ▸ List.mem_map_of_mem _ h2)
      rw [qtyOf_cons, if_neg hne, zero_add]
      exact ih hnd.2 h2

/-- The stock-decrement loop equals a single map over the product table
subtracting, from each product, the total quantity the items request
for it; no other part of the database is touched. -/
theorem decrementStock_eq (items : List OrderItemInput) (db : DB) :
    decrementStock items db =
      { db with products := db.products.map (fun p =>
          { p with stock := p.stock - qtyOf items p.id }) } := by
  induction items generalizing db with
  | nil =>
    have hfun : (fun p : Product => { p with stock := p.stock - qtyOf [] p.id }) =
        fun p => p := by
      funext p
      have : qtyOf [] p.id = 0 := rfl
      simp [this]
    rw [hfun]
    rw [show (List.map (fun p => p) db.products) = db.products from List.map_id' db.products]
    rfl
  | cons item rest ih =>
    have hstep : decrementStock (item :: rest) db =
        decrementStock rest
          { db with products := db.products.map (fun p =>
              if p.id == item.productId then
                { p with stock := p.stock - item.quantity }
              else p) } := rfl
    rw [hstep, ih]
    have hfun : ∀ p : Product,
        (fun q : Product => { q with stock := q.stock - qtyOf rest q.id })
            ((fun q : Product =>
              if q.id == item.productId then
                { q with stock := q.stock - item.quantity }
              else q) p) =
          { p with stock := p.stock - qtyOf (item :: rest) p.id } := by
      intro p
      by_cases hpid : p.id = item.productId
      · simp only [hpid, beq_self_eq_true, if_pos]
        have : qtyOf (item :: rest) p.id =
            item.quantity + qtyOf rest p.id := by
          rw [qtyOf_cons, if_pos hpid.symm]
        rw [hpid] at this
        simp [this, sub_sub]
      · have hbeq : (p.id == item.productId) = false := by simp [hpid]
        simp only [hbeq, Bool.false_eq_true, if_neg, if_false]
        have : qtyOf (item :: rest) p.id = qtyOf rest p.id := by
          rw [qtyOf_cons, if_neg (fun he => hpid he.symm), zero_add]
        simp [this]
    simp only [List.map_map, Function.comp_def]
    congr 1
    exact List.map_congr_left (fun p _ => hfun p)

/-- Any failing path of the `orderRouter.create` body leaves the
database exactly as it was: the pre-transaction phases only read, and
the transaction rolls back on failure. -/
theorem orderCreateBody_error {input : CreateOrderInput} {uid : String}
    {roles : List RoleName} {db db' : DB} {e : TRPCError}
    (h : orderCreateBody input uid roles db = (db', .error e)) : db' = db := by
  simp only [orderCreateBody] at h
  split at h
  · cases h; rfl
  · split at h
    · cases h; rfl
    · split at h
      · cases h; rfl
      · simp only [dbTransaction] at h
        cases h

/-- Successful-path decomposition of the `orderRouter.create` body:
input passed validation, the length check passed, the validation/total
loop succeeded, and the result state is the transaction's creates plus
the stock decrements. -/
theorem orderCreateBody_ok_spec {input : CreateOrderInput} {uid : String}
    {roles : List RoleName} {db db' : DB} {order : OrderRow}
    (h : orderCreateBody input uid roles db = (db', .ok order)) :
    input.isValid = true ∧
    (db.products.filter (fun p =>
        (input.items.map (·.productId)).contains p.id)).length =
      (input.items.map (·.productId)).length ∧
    ∃ total data,
      computeOrderItems (db.products.filter (fun p =>
          (input.items.map (·.productId)).contains p.id)) 0 [] input.items =
        .ok (total, data) ∧
      order = ⟨db.nextOrderId, uid, total, .PENDING⟩ ∧
      db' = decrementStock input.items
        { db with
          orders := db.orders ++ [order]
          orderItems := db.orderItems ++
            createManyOrderItems db.nextOrderId db.nextOrderItemId data
          nextOrderId := db.nextOrderId + 1
          nextOrderItemId := db.nextOrderItemId + (data.length : Int) } := by
  simp only [orderCreateBody] at h
  split at h
  · cases h
  next hval =>
    split at h
    · cases h
    next hlen =>
      split at h
      · cases h
      next total data hco =>
        simp only [dbTransaction] at h
        cases h
        refine ⟨by simpa using hval, by simpa using hlen, total, data, hco, rfl, rfl⟩

theorem runProtected_some {α : Type} {db : DB} {user : UserContext} {uid : String}
    (h : user.userId = some uid) (body : ProcBody α) :
    runProtected db user body = body uid user.roles db := by
  unfold runProtected
  rw [h]

theorem runProtected_none {α : Type} {db : DB} {user : UserContext}
    (h : user.userId = none) (body : ProcBody α) :
    runProtected db user body = (db, .error ⟨.UNAUTHORIZED, "Not authenticated"⟩) := by
  unfold runProtected
  rw [h]

theorem createManyOrderItems_length (oid nid : Int) (data : List OrderItemData) :
    (createManyOrderItems oid nid data).length = data.length := by
  induction data generalizing nid with
  | nil => rfl
  | cons d ds ih => simp [createManyOrderItems, ih]

/-- Looking a requested product up in the `findMany` result is the
same as looking it up in the whole product table. -/
theorem find_in_filtered {products : List Product} {ids : List Int} {pid : Int}
    (hpid : pid ∈ ids) :
    (products.filter (fun p => ids.contains p.id)).find? (fun p => p.id == pid) =
      products.find? (fun p => p.id == pid) :=
  find_filter_eq _ _ _ (fun x hx => by
    have hxe : x.id = pid := by simpa using hx
    rw [hxe]
    exact List.elem_iff.mpr hpid)

/-- C1: a successful `order.create` call creates, in one atomic
transaction, one new `Order` row, one `OrderItem` per input item, and
decrements each requested product's stock by exactly the requested
quantity; products not named in the order keep their stock; and any
failure leaves the database completely unchanged. -/
theorem orderCreate_atomic_effects
    (db db' : DB) (user : UserContext) (input : CreateOrderInput)
    (r : Except TRPCError OrderRow)
    (hnd : (db.products.map Product.id).Nodup)
    (h : orderCreate db user input = (db', r)) :
    (∀ order, r = .ok order →
      db'.orders = db.orders ++ [order] ∧
      db'.orderItems = db.orderItems ++
        createManyOrderItems order.id db.nextOrderItemId
          (input.items.map (fun it =>
            ⟨it.productId, it.quantity, lookupPrice db.products it.productId⟩)) ∧
      db'.orderItems.length = db.orderItems.length + input.items.length ∧
      (input.items.map (·.productId)).Nodup ∧
      (∀ it ∈ input.items,
        db'.products.find? (fun p => p.id == it.productId) =
          (db.products.find? (fun p => p.id == it.productId)).map
            (fun p => { p with stock := p.stock - it.quantity })) ∧
      (∀ pid : Int, pid ∉ input.items.map (·.productId) →
        db'.products.find? (fun p => p.id == pid) =
          db.products.find? (fun p => p.id == pid))) ∧
    (∀ e, r = .error e → db' = db) := by
  have hiff : ∀ it ∈ input.items,
      lookupPrice (db.products.filter (fun p =>
        (input.items.map (·.productId)).contains p.id)) it.productId =
      lookupPrice db.products it.productId := by
    intro it hit
    unfold lookupPrice
    rw [find_in_filtered (List.mem_map_of_mem _ hit)]
  constructor
  · intro order hr
    subst hr
    unfold orderCreate runCustomer at h
    rcases huser : user.userId with _ | uid
    · rw [runProtected_none huser] at h
      cases h
    · rw [runProtected_some huser] at h
      obtain ⟨hval, hlen, total, data, hco, horder, hdb'⟩ := orderCreateBody_ok_spec h
      obtain ⟨hnodup, hexists⟩ := filter_length_eq_nodup_and_mem hnd hlen
      obtain ⟨htotal, hdata, hstock⟩ := computeOrderItems_ok hco
      have hdata' : data = input.items.map (fun it =>
          (⟨it.productId, it.quantity, lookupPrice db.products it.productId⟩ :
            OrderItemData)) := by
        rw [hdata, List.nil_append]
        exact List.map_congr_left (fun it hit => by rw [hiff it hit])
      rw [decrementStock_eq] at hdb'
      subst hdb'
      subst horder
      refine ⟨rfl, ?_, ?_, hnodup, ?_, ?_⟩
      · show db.orderItems ++
            createManyOrderItems db.nextOrderId db.nextOrderItemId data = _
        rw [hdata']
      · show (db.orderItems ++
            createManyOrderItems db.nextOrderId db.nextOrderItemId data).length = _
        rw [List.length_append, createManyOrderItems_length, hdata', List.length_map]
      · intro it hit
        show (db.products.map (fun p =>
            { p with stock := p.stock - qtyOf input.items p.id })).find?
              (fun p => p.id == it.productId) = _
        rw [find_map_eq db.products (fun p => p.id == it.productId)
          (fun p => { p with stock := p.stock - qtyOf input.items p.id })
          (fun x => rfl)]
        cases hf : db.products.find? (fun p => p.id == it.productId) with
        | none => rfl
        | some p =>
          have hpid : p.id = it.productId := by simpa using List.find?_some hf
          simp only [Option.map_some']
          congr 1
          rw [hpid, qtyOf_eq_of_nodup hnodup hit]
      · intro pid hpid
        show (db.products.map (fun p =>
            { p with stock := p.stock - qtyOf input.items p.id })).find?
              (fun p => p.id == pid) = _
        rw [find_map_eq db.products (fun p => p.id == pid)
          (fun p => { p with stock := p.stock - qtyOf input.items p.id })
          (fun x => rfl)]
        cases hf : db.products.find? (fun p => p.id == pid) with
        | none => rfl
        | some p =>
          have hpe : p.id = pid := by simpa using List.find?_some hf
          have hq : qtyOf input.items p.id = 0 := by
            apply qtyOf_eq_zero
            intro i hi he
            exact hpid (by rw [← hpe, ← he]; exact List.mem_map_of_mem _ hi)
          simp only [Option.map_some']
          congr 1
          rw [hq, sub_zero]
  · intro e hr
    subst hr
    unfold orderCreate runCustomer at h
    rcases huser : user.userId with _ | uid
    · rw [runProtected_none huser] at h
      cases h
      rfl
    · rw [runProtected_some huser] at h
      exact orderCreateBody_error h

theorem orderCreate_run_on_testDB :
    orderCreate testDB ⟨some "cust", [RoleName.CUSTOMER]⟩ ⟨[⟨1, 2⟩]⟩ =
      (testDBAfterOrder, .ok ⟨1, "cust", 10, .PENDING⟩) := by
  norm_num [orderCreate, runCustomer, runProtected, orderCreateBody,
    CreateOrderInput.isValid, OrderItemInput.isValid, computeOrderItems,
    dbTransaction, decrementStock, createManyOrderItems, testDB, testDBAfterOrder]

theorem orderCreate_atomic_effects_witness :
    testDBAfterOrder.orders = testDB.orders ++ [⟨1, "cust", 10, .PENDING⟩] :=
  ((orderCreate_atomic_effects testDB testDBAfterOrder
      ⟨some "cust", [RoleName.CUSTOMER]⟩ ⟨[⟨1, 2⟩]⟩ (.ok ⟨1, "cust", 10, .PENDING⟩)
      (by decide) orderCreate_run_on_testDB).1
    ⟨1, "cust", 10, .PENDING⟩ rfl).1

theorem lookupPrice_filtered {products : List Product} {ids : List Int} {pid : Int}
    (hpid : pid ∈ ids) :
    lookupPrice (products.filter (fun p => ids.contains p.id)) pid =
      lookupPrice products pid := by
  unfold lookupPrice
  rw [find_in_filtered hpid]

/-- C4: on success, the created order's `totalAmount` is the sum over
the input items of the product's catalog price at call time multiplied
by the requested quantity. -/
theorem orderCreate_totalAmount
    (db db' : DB) (user : UserContext) (input : CreateOrderInput) (order : OrderRow)
    (hnd : (db.products.map Product.id).Nodup)
    (h : orderCreate db user input = (db', .ok order)) :
    order.totalAmount = (input.items.map (fun it =>
      lookupPrice db.products it.productId * (it.quantity : ℚ))).sum := by
  unfold orderCreate runCustomer at h
  rcases huser : user.userId with _ | uid
  · rw [runProtected_none huser] at h
    cases h
  · rw [runProtected_some huser] at h
    obtain ⟨hval, hlen, total, data, hco, horder, hdb'⟩ := orderCreateBody_ok_spec h
    obtain ⟨htotal, hdata, hstock⟩ := computeOrderItems_ok hco
    subst horder
    show total = _
    rw [htotal, zero_add]
    exact congrArg List.sum (List.map_congr_left (fun it hit => by
      rw [lookupPrice_filtered (List.mem_map_of_mem _ hit)]))

theorem orderCreate_totalAmount_witness :
    (⟨1, "cust", 10, .PENDING⟩ : OrderRow).totalAmount =
      ((⟨[⟨1, 2⟩]⟩ : CreateOrderInput).items.map (fun it =>
        lookupPrice testDB.products it.productId * (it.quantity : ℚ))).sum :=
  orderCreate_totalAmount testDB testDBAfterOrder
    ⟨some "cust", [RoleName.CUSTOMER]⟩ ⟨[⟨1, 2⟩]⟩ ⟨1, "cust", 10, .PENDING⟩
    (by decide) orderCreate_run_on_testDB

/-- If every item's product is found but some item's quantity exceeds
its product's stock, the validation loop throws `BAD_REQUEST`. -/
theorem computeOrderItems_insufficient {products : List Product}
    {items : List OrderItemInput}
    (hfind : ∀ it ∈ items, ∃ p,
      products.find? (fun q => q.id == it.productId) = some p)
    (hbad : ∃ it ∈ items, ∃ p,
      products.find? (fun q => q.id == it.productId) = some p ∧
      p.stock < it.quantity) :
    ∀ t acc, ∃ msg, computeOrderItems products t acc items =
      .error ⟨.BAD_REQUEST, msg⟩ := by
  induction items with
  | nil =>
    obtain ⟨it, hit, _⟩ := hbad
    cases hit
  | cons x rest ih =>
    intro t acc
    obtain ⟨px, hpx⟩ := hfind x (List.mem_cons_self x rest)
    by_cases hst : px.stock < x.quantity
    · exact ⟨"Insufficient stock for product: " ++ px.name,
        by simp only [computeOrderItems, hpx, if_pos hst]⟩
    · have hbad' : ∃ it ∈ rest, ∃ p,
          products.find? (fun q => q.id == it.productId) = some p ∧
          p.stock < it.quantity := by
        obtain ⟨it, hit, p, hp, hlt⟩ := hbad
        rcases List.mem_cons.mp hit with rfl | h2
        · rw [hpx] at hp
          cases hp
          exact absurd hlt hst
        · exact ⟨it, h2, p, hp, hlt⟩
      obtain ⟨msg, hmsg⟩ :=
        ih (fun it hcase => hfind it (List.mem_cons_of_mem x hcase)) hbad'
          (t + px.price * (x.quantity : ℚ))
          (acc ++ [⟨x.productId, x.quantity, px.price⟩])
      exact ⟨msg, by simp only [computeOrderItems, hpx, if_neg hst]; exact hmsg⟩

/-- C2: whenever some requested product does not exist or some
requested quantity exceeds its product's current stock, `order.create`
fails with `BAD_REQUEST` and the database is unchanged. -/
theorem orderCreate_stock_validation
    (db db' : DB) (user : UserContext) (uid : String) (input : CreateOrderInput)
    (r : Except TRPCError OrderRow)
    (hnd : (db.products.map Product.id).Nodup)
    (huser : user.userId = some uid)
    (hbad : (∃ it ∈ input.items, ∀ p ∈ db.products, p.id ≠ it.productId) ∨
            (∃ it ∈ input.items, ∃ p ∈ db.products, p.id = it.productId ∧
              p.stock < it.quantity))
    (h : orderCreate db user input = (db', r)) :
    db' = db ∧ ∃ msg, r = .error ⟨.BAD_REQUEST, msg⟩ := by
  unfold orderCreate runCustomer at h
  rw [runProtected_some huser] at h
  simp only [orderCreateBody] at h
  split at h
  · cases h
    exact ⟨rfl, _, rfl⟩
  · split at h
    · cases h
      exact ⟨rfl, _, rfl⟩
    next hlen0 =>
      have hlen : (db.products.filter (fun p =>
          (input.items.map (·.productId)).contains p.id)).length =
          (input.items.map (·.productId)).length := not_not.mp hlen0
      obtain ⟨hnodup, hexists⟩ := filter_length_eq_nodup_and_mem hnd hlen
      have hfind : ∀ it ∈ input.items, ∃ p,
          (db.products.filter (fun p =>
            (input.items.map (·.productId)).contains p.id)).find?
              (fun q => q.id == it.productId) = some p := by
        intro it hit
        obtain ⟨p, hpmem, hpid⟩ := hexists it.productId (List.mem_map_of_mem _ hit)
        refine ⟨p, ?_⟩
        rw [find_in_filtered (List.mem_map_of_mem _ hit)]
        have hfd := find_of_mem_of_nodup hnd hpmem
        rwa [hpid] at hfd
      have hbadf : ∃ it ∈ input.items, ∃ p,
          (db.products.filter (fun p =>
            (input.items.map (·.productId)).contains p.id)).find?
              (fun q => q.id == it.productId) = some p ∧
          p.stock < it.quantity := by
        rcases hbad with ⟨it, hit, hnone⟩ | ⟨it, hit, p, hpmem, hpid, hst⟩
        · obtain ⟨p, hpmem, hpid⟩ := hexists it.productId (List.mem_map_of_mem _ hit)
          exact absurd hpid (hnone p hpmem)
        · refine ⟨it, hit, p, ?_, hst⟩
          rw [find_in_filtered (List.mem_map_of_mem _ hit)]
          have hfd := find_of_mem_of_nodup hnd hpmem
          rwa [hpid] at hfd
      obtain ⟨msg, hmsg⟩ := computeOrderItems_insufficient hfind hbadf 0 []
      simp only [hmsg] at h
      cases h
      exact ⟨rfl, msg, rfl⟩

theorem orderCreate_stock_validation_witness :
    testDB = testDB ∧
    ∃ msg, (Except.error ⟨.BAD_REQUEST, "Insufficient stock for product: " ++ "Widget"⟩ :
      Except TRPCError OrderRow) = .error ⟨.BAD_REQUEST, msg⟩ :=
  orderCreate_stock_validation testDB testDB ⟨some "cust", []⟩ "cust" ⟨[⟨1, 100⟩]⟩
    (.error ⟨.BAD_REQUEST, "Insufficient stock for product: " ++ "Widget"⟩)
    (by decide) rfl
    (Or.inr (by decide))
    (by norm_num [orderCreate, runCustomer, runProtected, orderCreateBody,
      CreateOrderInput.isValid, OrderItemInput.isValid, computeOrderItems,
      dbTransaction, testDB])

theorem createManyOrderItems_mem {oid nid : Int} {data : List OrderItemData}
    {row : OrderItemRow} (h : row ∈ createManyOrderItems oid nid data) :
    ∃ d ∈ data, row.orderId = oid ∧ row.productId = d.productId ∧
      row.quantity = d.quantity ∧ row.priceAtPurchase = d.price := by
  induction data generalizing nid with
  | nil => cases h
  | cons d ds ih =>
    rw [createManyOrderItems] at h
    rcases List.mem_cons.mp h with rfl | h2
    · exact ⟨d, List.mem_cons_self d ds, rfl, rfl, rfl, rfl⟩
    · obtain ⟨d', hd', h1, h2', h3, h4⟩ := ih h2
      exact ⟨d', List.mem_cons_of_mem d hd', h1, h2', h3, h4⟩

/-- `productRouter.update` writes only to the product table: the order
item rows are untouched on every path. -/
theorem productUpdateBody_orderItems (input : ProductUpdateInput) (uid : String)
    (roles : List RoleName) (db : DB) :
    ((productUpdateBody input uid roles db).1).orderItems = db.orderItems := by
  simp only [productUpdateBody]
  split
  · rfl
  · split
    · rfl
    · split
      · rfl
      · rfl

theorem productUpdate_orderItems (db : DB) (user : UserContext)
    (input : ProductUpdateInput) :
    ((productUpdate db user input).1).orderItems = db.orderItems := by
  unfold productUpdate runSeller runRoleBased
  rcases huser : user.userId with _ | uid
  · rw [runProtected_none huser]
  · rw [runProtected_some huser]
    split
    · exact productUpdateBody_orderItems input uid user.roles db
    · rfl

/-- C10: each `OrderItem` created by a successful `order.create`
records, in `priceAtPurchase`, the catalog price its product had at
the time of the call, and `product.update` never touches existing
order items, so later price changes do not alter past orders. -/
theorem orderItem_priceAtPurchase
    (db db' : DB) (user : UserContext) (input : CreateOrderInput) (order : OrderRow)
    (hnd : (db.products.map Product.id).Nodup)
    (h : orderCreate db user input = (db', .ok order)) :
    (∃ newRows, db'.orderItems = db.orderItems ++ newRows ∧
      newRows.length = input.items.length ∧
      ∀ row ∈ newRows, row.orderId = order.id ∧
        row.priceAtPurchase = lookupPrice db.products row.productId) ∧
    (∀ (db2 : DB) (user2 : UserContext) (upd : ProductUpdateInput),
      ((productUpdate db2 user2 upd).1).orderItems = db2.orderItems) := by
  constructor
  · unfold orderCreate runCustomer at h
    rcases huser : user.userId with _ | uid
    · rw [runProtected_none huser] at h
      cases h
    · rw [runProtected_some huser] at h
      obtain ⟨hval, hlen, total, data, hco, horder, hdb'⟩ := orderCreateBody_ok_spec h
      obtain ⟨htotal, hdata, hstock⟩ := computeOrderItems_ok hco
      have hdata' : data = input.items.map (fun it =>
          (⟨it.productId, it.quantity, lookupPrice db.products it.productId⟩ :
            OrderItemData)) := by
        rw [hdata, List.nil_append]
        exact List.map_congr_left (fun it hit => by
          rw [lookupPrice_filtered (List.mem_map_of_mem _ hit)])
      rw [decrementStock_eq] at hdb'
      subst hdb'
      subst horder
      refine ⟨createManyOrderItems db.nextOrderId db.nextOrderItemId data, rfl, ?_, ?_⟩
      · rw [createManyOrderItems_length, hdata', List.length_map]
      · intro row hrow
        obtain ⟨d, hd, h1, h2, h3, h4⟩ := createManyOrderItems_mem hrow
        rw [hdata'] at hd
        obtain ⟨it, hit, rfl⟩ := List.mem_map.mp hd
        exact ⟨h1, by rw [h4, h2]⟩
  · intro db2 user2 upd
    exact productUpdate_orderItems db2 user2 upd

theorem orderItem_priceAtPurchase_witness :
    (∃ newRows, testDBAfterOrder.orderItems = testDB.orderItems ++ newRows ∧
      newRows.length = (⟨[⟨1, 2⟩]⟩ : CreateOrderInput).items.length ∧
      ∀ row ∈ newRows, row.orderId = (⟨1, "cust", 10, .PENDING⟩ : OrderRow).id ∧
        row.priceAtPurchase = lookupPrice testDB.products row.productId) ∧
    ((productUpdate testDB ⟨some "admin", [RoleName.ADMIN]⟩
        ⟨1, none, none, some 6, none, none⟩).1).orderItems = testDB.orderItems :=
  ⟨(orderItem_priceAtPurchase testDB testDBAfterOrder
      ⟨some "cust", [RoleName.CUSTOMER]⟩ ⟨[⟨1, 2⟩]⟩ ⟨1, "cust", 10, .PENDING⟩
      (by decide) orderCreate_run_on_testDB).1,
   (orderItem_priceAtPurchase testDB testDBAfterOrder
      ⟨some "cust", [RoleName.CUSTOMER]⟩ ⟨[⟨1, 2⟩]⟩ ⟨1, "cust", 10, .PENDING⟩
      (by decide) orderCreate_run_on_testDB).2 testDB
      ⟨some "admin", [RoleName.ADMIN]⟩ ⟨1, none, none, some 6, none, none⟩⟩

theorem contains_iff_mem {r : RoleName} {l : List RoleName} :
    l.contains r = true ↔ r ∈ l := List.elem_iff

/-- The middleware's `allowedRoles.some(role => userRoles.includes(role))`
succeeds exactly when the caller holds at least one allowed role. -/
theorem hasAccess_iff (allowed userRoles : List RoleName) :
    hasAccess allowed userRoles = true ↔ ∃ r ∈ allowed, r ∈ userRoles := by
  unfold hasAccess
  rw [List.any_eq_true]
  exact exists_congr (fun r => and_congr_right (fun _ => contains_iff_mem))

theorem runRoleBased_allowed {α : Type} {allowed : List RoleName} {db : DB}
    {user : UserContext} {uid : String} (body : ProcBody α)
    (huser : user.userId = some uid)
    (hacc : hasAccess allowed user.roles = true) :
    runRoleBased allowed db user body = body uid user.roles db := by
  unfold runRoleBased
  rw [runProtected_some huser]
  exact if_pos hacc

theorem runRoleBased_forbidden {α : Type} {allowed : List RoleName} {db : DB}
    {user : UserContext} {uid : String} (body : ProcBody α)
    (huser : user.userId = some uid)
    (hacc : ¬ hasAccess allowed user.roles = true) :
    runRoleBased allowed db user body =
      (db, .error ⟨.FORBIDDEN, "User does not have required role(s)"⟩) := by
  unfold runRoleBased
  rw [runProtected_some huser]
  exact if_neg hacc

/-- C3: each role-gated procedure admits an authenticated caller
exactly when the caller holds one of the procedure's allowed roles
(seller: SELLER/ADMIN/SUPER_ADMIN; admin: ADMIN/SUPER_ADMIN;
super-admin: SUPER_ADMIN); in every other case it returns `FORBIDDEN`
with the database untouched and without running the body. -/
theorem roleBased_allowlist
    (db : DB) (user : UserContext) (uid : String)
    (huser : user.userId = some uid) :
    (∀ (α : Type) (body : ProcBody α),
      ((RoleName.SELLER ∈ user.roles ∨ RoleName.ADMIN ∈ user.roles ∨
          RoleName.SUPER_ADMIN ∈ user.roles) →
        runSeller db user body = body uid user.roles db) ∧
      (¬(RoleName.SELLER ∈ user.roles ∨ RoleName.ADMIN ∈ user.roles ∨
          RoleName.SUPER_ADMIN ∈ user.roles) →
        runSeller db user body =
          (db, .error ⟨.FORBIDDEN, "User does not have required role(s)"⟩))) ∧
    (∀ (α : Type) (body : ProcBody α),
      ((RoleName.ADMIN ∈ user.roles ∨ RoleName.SUPER_ADMIN ∈ user.roles) →
        runAdmin db user body = body uid user.roles db) ∧
      (¬(RoleName.ADMIN ∈ user.roles ∨ RoleName.SUPER_ADMIN ∈ user.roles) →
        runAdmin db user body =
          (db, .error ⟨.FORBIDDEN, "User does not have required role(s)"⟩))) ∧
    (∀ (α : Type) (body : ProcBody α),
      (RoleName.SUPER_ADMIN ∈ user.roles →
        runSuperAdmin db user body = body uid user.roles db) ∧
      (RoleName.SUPER_ADMIN ∉ user.roles →
        runSuperAdmin db user body =
          (db, .error ⟨.FORBIDDEN, "User does not have required role(s)"⟩))) := by
  refine ⟨fun α body => ⟨?_, ?_⟩, fun α body => ⟨?_, ?_⟩, fun α body => ⟨?_, ?_⟩⟩
  · intro hmem
    refine runRoleBased_allowed body huser ((hasAccess_iff _ _).mpr ?_)
    rcases hmem with h | h | h
    · exact ⟨RoleName.SELLER, by simp, h⟩
    · exact ⟨RoleName.ADMIN, by simp, h⟩
    · exact ⟨RoleName.SUPER_ADMIN, by simp, h⟩
  · intro hmem
    refine runRoleBased_forbidden body huser (fun hacc => ?_)
    obtain ⟨r, hr, hrr⟩ := (hasAccess_iff _ _).mp hacc
    have : r = RoleName.SELLER ∨ r = RoleName.ADMIN ∨ r = RoleName.SUPER_ADMIN := by
      simpa using hr
    rcases this with rfl | rfl | rfl
    · exact hmem (Or.inl hrr)
    · exact hmem (Or.inr (Or.inl hrr))
    · exact hmem (Or.inr (Or.inr hrr))
  · intro hmem
    refine runRoleBased_allowed body huser ((hasAccess_iff _ _).mpr ?_)
    rcases hmem with h | h
    · exact ⟨RoleName.ADMIN, by simp, h⟩
    · exact ⟨RoleName.SUPER_ADMIN, by simp, h⟩
  · intro hmem
    refine runRoleBased_forbidden body huser (fun hacc => ?_)
    obtain ⟨r, hr, hrr⟩ := (hasAccess_iff _ _).mp hacc
    have : r = RoleName.ADMIN ∨ r = RoleName.SUPER_ADMIN := by simpa using hr
    rcases this with rfl | rfl
    · exact hmem (Or.inl hrr)
    · exact hmem (Or.inr hrr)
  · intro hmem
    exact runRoleBased_allowed body huser
      ((hasAccess_iff _ _).mpr ⟨RoleName.SUPER_ADMIN, by simp, hmem⟩)
  · intro hmem
    refine runRoleBased_forbidden body huser (fun hacc => ?_)
    obtain ⟨r, hr, hrr⟩ := (hasAccess_iff _ _).mp hacc
    have : r = RoleName.SUPER_ADMIN := by simpa using hr
    subst this
    exact hmem hrr

theorem roleBased_allowlist_witness :
    runSeller testDB ⟨some "u", [RoleName.CUSTOMER]⟩
        (fun _ _ db0 => (db0, Except.ok true)) =
      (testDB, .error ⟨.FORBIDDEN, "User does not have required role(s)"⟩) :=
  ((roleBased_allowlist testDB ⟨some "u", [RoleName.CUSTOMER]⟩ "u" rfl).1 Bool
    (fun _ _ db0 => (db0, Except.ok true))).2 (by decide)

/-- C5: with a missing or unverifiable token, every protected or
role-gated call fails `UNAUTHORIZED` before the role allowlist is
consulted and before the body runs, and never yields `FORBIDDEN`. -/
theorem auth_precedes_role_check
    (db : DB) (t : TokenState) (rolesOf : String → List RoleName)
    (ht : t = .missing ∨ t = .invalid) :
    ∀ (α : Type) (allowed : List RoleName) (body : ProcBody α),
      runProtected db (getUserFromToken t rolesOf) body =
        (db, .error ⟨.UNAUTHORIZED, "Not authenticated"⟩) ∧
      runRoleBased allowed db (getUserFromToken t rolesOf) body =
        (db, .error ⟨.UNAUTHORIZED, "Not authenticated"⟩) ∧
      (∀ e, (runRoleBased allowed db (getUserFromToken t rolesOf) body).2 =
          .error e → e.code ≠ .FORBIDDEN) := by
  have huser : (getUserFromToken t rolesOf).userId = none := by
    rcases ht with rfl | rfl <;> rfl
  intro α allowed body
  have h2 : runRoleBased allowed db (getUserFromToken t rolesOf) body =
      (db, .error ⟨.UNAUTHORIZED, "Not authenticated"⟩) := by
    unfold runRoleBased
    exact runProtected_none huser _
  refine ⟨runProtected_none huser body, h2, ?_⟩
  intro e he
  rw [h2] at he
  cases he
  decide

theorem auth_precedes_role_check_witness :
    runProtected testDB (getUserFromToken .missing (fun _ => []))
        (fun _ _ db0 => (db0, Except.ok true)) =
      (testDB, .error ⟨.UNAUTHORIZED, "Not authenticated"⟩) ∧
    runRoleBased [RoleName.ADMIN] testDB (getUserFromToken .missing (fun _ => []))
        (fun _ _ db0 => (db0, Except.ok true)) =
      (testDB, .error ⟨.UNAUTHORIZED, "Not authenticated"⟩) ∧
    (∀ e, (runRoleBased [RoleName.ADMIN] testDB
        (getUserFromToken .missing (fun _ => []))
        (fun _ _ db0 => (db0, Except.ok true))).2 = .error e →
      e.code ≠ .FORBIDDEN) :=
  auth_precedes_role_check testDB .missing (fun _ => []) (Or.inl rfl) Bool
    [RoleName.ADMIN] (fun _ _ db0 => (db0, Except.ok true))

theorem contains_eq_false_of_not_mem {r : RoleName} {l : List RoleName}
    (h : r ∉ l) : l.contains r = false := by
  cases hb : l.contains r
  · rfl
  · exact absurd (contains_iff_mem.mp hb) h

/-- `productRouter.update` on an existing product reduces to its
permission check: admins, super-admins and the owning seller update;
everyone else gets `FORBIDDEN`. -/
theorem productUpdateBody_found (input : ProductUpdateInput) (uid : String)
    (roles : List RoleName) (db : DB) (prod : Product)
    (hval : input.isValid = true)
    (hfound : db.products.find? (fun p => p.id == input.id) = some prod) :
    productUpdateBody input uid roles db =
      if (!(roles.contains RoleName.ADMIN || roles.contains RoleName.SUPER_ADMIN) &&
          !(prod.createdById == uid)) = true then
        (db, .error ⟨.FORBIDDEN, "You do not have permission to update this product"⟩)
      else
        ({ db with products := db.products.map (fun p =>
            if p.id == input.id then applyProductUpdate input p else p) },
          .ok (applyProductUpdate input prod)) := by
  simp only [productUpdateBody, hval, hfound, Bool.not_true, Bool.false_eq_true,
    if_false]

/-- `productRouter.delete` on an existing product reduces to its
permission check followed by the `OrderItem.product` Restrict check;
on success the product row is removed, its cart items cascading away
with it. -/
theorem productDeleteBody_found (id : Int) (uid : String) (roles : List RoleName)
    (db : DB) (prod : Product)
    (hid : (0:Int) < id)
    (hfound : db.products.find? (fun p => p.id == id) = some prod) :
    productDeleteBody id uid roles db =
      if (!(roles.contains RoleName.ADMIN || roles.contains RoleName.SUPER_ADMIN) &&
          !(prod.createdById == uid)) = true then
        (db, .error ⟨.FORBIDDEN, "You do not have permission to delete this product"⟩)
      else if db.orderItems.any (fun oi => oi.productId == id) then
        (db, .error ⟨.INTERNAL_SERVER_ERROR,
          "Foreign key constraint violated on OrderItem.product"⟩)
      else
        ({ db with
            products := db.products.filter (fun p => !(p.id == id))
            cartItems := db.cartItems.filter (fun ci => !(ci.productId == id)) },
          .ok true) := by
  simp only [productDeleteBody, hfound, hid, decide_True, Bool.not_true,
    Bool.false_eq_true, if_false]

/-- C9 (amended): for an existing product, `product.update` succeeds
for callers holding ADMIN or SUPER_ADMIN regardless of who created the
product, and `product.delete` does so provided no `OrderItem`
references the product (the `OrderItem.product` foreign key, Restrict
by default, refuses deletes of ordered products); a caller holding
SELLER but neither admin role succeeds under the same conditions
exactly when the product's `createdById` is the caller, and otherwise
gets `FORBIDDEN` with the database unchanged. -/
theorem product_mutation_ownership
    (db : DB) (user : UserContext) (uid : String) (prod : Product)
    (input : ProductUpdateInput)
    (huser : user.userId = some uid)
    (hval : input.isValid = true)
    (hid : (0:Int) < input.id)
    (hfound : db.products.find? (fun p => p.id == input.id) = some prod) :
    ((RoleName.ADMIN ∈ user.roles ∨ RoleName.SUPER_ADMIN ∈ user.roles) →
      (productUpdate db user input).2 = .ok (applyProductUpdate input prod) ∧
      ((∀ oi ∈ db.orderItems, oi.productId ≠ input.id) →
        (productDelete db user input.id).2 = .ok true)) ∧
    ((RoleName.SELLER ∈ user.roles ∧ RoleName.ADMIN ∉ user.roles ∧
        RoleName.SUPER_ADMIN ∉ user.roles) →
      (prod.createdById = uid →
        (productUpdate db user input).2 = .ok (applyProductUpdate input prod) ∧
        ((∀ oi ∈ db.orderItems, oi.productId ≠ input.id) →
          (productDelete db user input.id).2 = .ok true)) ∧
      (prod.createdById ≠ uid →
        productUpdate db user input =
          (db, .error ⟨.FORBIDDEN, "You do not have permission to update this product"⟩) ∧
        productDelete db user input.id =
          (db, .error ⟨.FORBIDDEN, "You do not have permission to delete this product"⟩))) := by
  constructor
  · intro hadm
    have hacc : hasAccess [RoleName.SELLER, RoleName.ADMIN, RoleName.SUPER_ADMIN]
        user.roles = true := by
      rw [hasAccess_iff]
      rcases hadm with h | h
      · exact ⟨RoleName.ADMIN, by simp, h⟩
      · exact ⟨RoleName.SUPER_ADMIN, by simp, h⟩
    have hcond : (!(user.roles.contains RoleName.ADMIN ||
        user.roles.contains RoleName.SUPER_ADMIN) &&
        !(prod.createdById == uid)) = false := by
      rcases hadm with h | h
      · rw [contains_iff_mem.mpr h]
        simp
      · rw [contains_iff_mem.mpr h]
        simp
    constructor
    · unfold productUpdate runSeller
      rw [runRoleBased_allowed _ huser hacc,
        productUpdateBody_found input uid user.roles db prod hval hfound,
        if_neg (by rw [hcond]; exact Bool.false_ne_true)]
    · intro hnoref
      have hfk : (db.orderItems.any (fun oi => oi.productId == input.id)) = false := by
        cases hb : db.orderItems.any (fun oi => oi.productId == input.id)
        · rfl
        · obtain ⟨oi, hoi, hbeq⟩ := List.any_eq_true.mp hb
          exact absurd (by simpa using hbeq) (hnoref oi hoi)
      unfold productDelete runSeller
      rw [runRoleBased_allowed _ huser hacc,
        productDeleteBody_found input.id uid user.roles db prod hid hfound,
        if_neg (by rw [hcond]; exact Bool.false_ne_true),
        if_neg (by rw [hfk]; exact Bool.false_ne_true)]
  · rintro ⟨hsell, hnadm, hnsup⟩
    have hacc : hasAccess [RoleName.SELLER, RoleName.ADMIN, RoleName.SUPER_ADMIN]
        user.roles = true := by
      rw [hasAccess_iff]
      exact ⟨RoleName.SELLER, by simp, hsell⟩
    have hA := contains_eq_false_of_not_mem hnadm
    have hS := contains_eq_false_of_not_mem hnsup
    constructor
    · intro howner
      have hcond : (!(user.roles.contains RoleName.ADMIN ||
          user.roles.contains RoleName.SUPER_ADMIN) &&
          !(prod.createdById == uid)) = false := by
        rw [hA, hS, howner]
        simp
      constructor
      · unfold productUpdate runSeller
        rw [runRoleBased_allowed _ huser hacc,
          productUpdateBody_found input uid user.roles db prod hval hfound,
          if_neg (by rw [hcond]; exact Bool.false_ne_true)]
      · intro hnoref
        have hfk : (db.orderItems.any (fun oi => oi.productId == input.id)) = false := by
          cases hb : db.orderItems.any (fun oi => oi.productId == input.id)
          · rfl
          · obtain ⟨oi, hoi, hbeq⟩ := List.any_eq_true.mp hb
            exact absurd (by simpa using hbeq) (hnoref oi hoi)
        unfold productDelete runSeller
        rw [runRoleBased_allowed _ huser hacc,
          productDeleteBody_found input.id uid user.roles db prod hid hfound,
          if_neg (by rw [hcond]; exact Bool.false_ne_true),
          if_neg (by rw [hfk]; exact Bool.false_ne_true)]
    · intro howner
      have hcond : (!(user.roles.contains RoleName.ADMIN ||
          user.roles.contains RoleName.SUPER_ADMIN) &&
          !(prod.createdById == uid)) = true := by
        rw [hA, hS]
        simp [howner]
      constructor
      · unfold productUpdate runSeller
        rw [runRoleBased_allowed _ huser hacc,
          productUpdateBody_found input uid user.roles db prod hval hfound,
          if_pos hcond]
      · unfold productDelete runSeller
        rw [runRoleBased_allowed _ huser hacc,
          productDeleteBody_found input.id uid user.roles db prod hid hfound,
          if_pos hcond]

/-- C9 counterexample to the claim as stated: product 1 of
`testDBAfterOrder` exists and the caller holds ADMIN, yet
`product.delete` does not succeed — the order item referencing the
product makes the Restrict foreign key on `OrderItem.product` refuse
the delete, and the database is unchanged. -/
theorem product_mutation_ownership_counterexample :
    productDelete testDBAfterOrder ⟨some "admin", [RoleName.ADMIN]⟩ 1 =
      (testDBAfterOrder, .error ⟨.INTERNAL_SERVER_ERROR,
        "Foreign key constraint violated on OrderItem.product"⟩) := by
  have hacc : hasAccess [RoleName.SELLER, RoleName.ADMIN, RoleName.SUPER_ADMIN]
      [RoleName.ADMIN] = true := by decide
  unfold productDelete runSeller
  rw [runRoleBased_allowed _ rfl hacc,
    productDeleteBody_found 1 "admin" _ testDBAfterOrder
      ⟨1, "Widget", "A very fine widget", 5, none, 8, "seller1"⟩ (by decide) rfl,
    if_neg (by decide), if_pos (by decide)]

theorem product_mutation_ownership_witness :
    (productUpdate testDB ⟨some "other", [RoleName.SELLER]⟩
        ⟨1, none, none, none, none, some 4⟩ =
      (testDB, .error ⟨.FORBIDDEN, "You do not have permission to update this product"⟩)) ∧
    (productDelete testDB ⟨some "other", [RoleName.SELLER]⟩ 1 =
      (testDB, .error ⟨.FORBIDDEN, "You do not have permission to delete this product"⟩)) :=
  ((product_mutation_ownership testDB ⟨some "other", [RoleName.SELLER]⟩ "other"
      ⟨1, "Widget", "A very fine widget", 5, none, 10, "seller1"⟩
      ⟨1, none, none, none, none, some 4⟩ rfl (by decide) (by decide) rfl).2
    (by decide)).2 (by decide)

theorem cartAddItemBody_products (db : DB) (uid : String) (roles : List RoleName)
    (pid q : Int) :
    ((cartAddItemBody pid q uid roles db).1).products = db.products := by
  unfold cartAddItemBody
  split
  · rfl
  · cases hc : db.carts.find? (fun c => c.userId == uid) with
    | some cart =>
      simp only [upsertCart, hc]
      split
      · rfl
      · split
        · rfl
        · rfl
    | none =>
      simp only [upsertCart, hc]
      split
      · rfl
      · split
        · rfl
        · rfl

theorem cartQuantity_eq_of_find {db2 : DB} {uid : String} {pid : Int}
    {cart : CartRow}
    (hc : db2.carts.find? (fun c => c.userId == uid) = some cart) :
    cartQuantity db2 uid pid =
      (db2.cartItems.find? (fun ci =>
        ci.cartId == cart.id && ci.productId == pid)).map (fun ci => ci.quantity) := by
  unfold cartQuantity
  rw [hc]

theorem cartQuantity_eq_none_of_find {db2 : DB} {uid : String} {pid : Int}
    (hc : db2.carts.find? (fun c => c.userId == uid) = none) :
    cartQuantity db2 uid pid = none := by
  unfold cartQuantity
  rw [hc]

/-- Core merge behaviour of the `cartItem.upsert` in `addItem`: after
the call the item's quantity is the previous quantity (0 when absent)
plus `q`. -/
theorem cartAddItemBody_quantity (db : DB) (uid : String) (roles : List RoleName)
    (pid q : Int) (hwf : db.WF) (hq : 1 ≤ q)
    (hp : ∃ p ∈ db.products, p.id = pid) :
    cartQuantity (cartAddItemBody pid q uid roles db).1 uid pid =
      some ((cartQuantity db uid pid).getD 0 + q) := by
  have hqd : decide (1 ≤ q) = true := decide_eq_true hq
  obtain ⟨p0, hp0mem, hp0id⟩ := hp
  have hpp : (db.products.find? (fun p => p.id == pid)).isSome = true :=
    List.find?_isSome.mpr ⟨p0, hp0mem, by simp [hp0id]⟩
  simp only [cartAddItemBody, hqd, Bool.not_true, Bool.false_eq_true, if_false]
  cases hc : db.carts.find? (fun c => c.userId == uid) with
  | some cart =>
    simp only [upsertCart, hc]
    cases hpf : db.products.find? (fun p => p.id == pid) with
    | none =>
      rw [hpf] at hpp
      cases hpp
    | some pfound =>
      cases hci : db.cartItems.find? (fun ci =>
          ci.cartId == cart.id && ci.productId == pid) with
      | some existing =>
        simp only [hpf, hci]
        refine Eq.trans (@cartQuantity_eq_of_find _ uid pid cart ?_) ?_
        · exact hc
        · dsimp only
          rw [find_map_eq db.cartItems
            (fun ci => ci.cartId == cart.id && ci.productId == pid)
            (fun ci => if ci.cartId == cart.id && ci.productId == pid then
              { ci with quantity := ci.quantity + q } else ci)
            (fun x => by
              by_cases hx : (x.cartId == cart.id && x.productId == pid) = true <;>
                simp [hx]), hci]
          have hcond := List.find?_some hci
          rw [cartQuantity_eq_of_find hc, hci]
          simp only [Option.map_some', if_pos hcond, Option.getD_some]
      | none =>
        simp only [hpf, hci]
        refine Eq.trans (@cartQuantity_eq_of_find _ uid pid cart ?_) ?_
        · exact hc
        · dsimp only
          rw [List.find?_append, hci,
            @List.find?_cons_of_pos CartItemRow
              (fun ci => ci.cartId == cart.id && ci.productId == pid)
              ⟨db.nextCartItemId, cart.id, pid, q⟩ [] (by simp),
            cartQuantity_eq_of_find hc, hci]
          simp
  | none =>
    simp only [upsertCart, hc]
    cases hpf : db.products.find? (fun p => p.id == pid) with
    | none =>
      rw [hpf] at hpp
      cases hpp
    | some pfound =>
      have hstale : ∀ ci ∈ db.cartItems, ci.cartId ≠ db.nextCartId := by
        intro ci hcimem hcid
        obtain ⟨c, hcmem, hcid2⟩ := hwf.itemCartExists ci hcimem
        have := hwf.cartIdLt c hcmem
        omega
      have hci : db.cartItems.find? (fun ci =>
          ci.cartId == db.nextCartId && ci.productId == pid) = none := by
        rw [List.find?_eq_none]
        intro ci hmem hcond
        simp only [Bool.and_eq_true, beq_iff_eq] at hcond
        exact hstale ci hmem hcond.1
      simp only [hpf, hci]
      refine Eq.trans (@cartQuantity_eq_of_find _ uid pid ⟨db.nextCartId, uid⟩ ?_) ?_
      · dsimp only
        rw [List.find?_append, hc, Option.none_or]
        exact @List.find?_cons_of_pos CartRow (fun c => c.userId == uid)
          ⟨db.nextCartId, uid⟩ [] (by simp)
      · dsimp only
        rw [List.find?_append, hci,
          @List.find?_cons_of_pos CartItemRow
            (fun ci => ci.cartId == db.nextCartId && ci.productId == pid)
            ⟨db.nextCartItemId, db.nextCartId, pid, q⟩ [] (by simp),
          cartQuantity_eq_none_of_find hc]
        simp

/-- `addItem` preserves foreign-key integrity of cart items and the
freshness of the cart-id counter. -/
theorem cartAddItemBody_WF (db : DB) (uid : String) (roles : List RoleName)
    (pid q : Int) (hwf : db.WF) : ((cartAddItemBody pid q uid roles db).1).WF := by
  unfold cartAddItemBody
  split
  · exact hwf
  · cases hc : db.carts.find? (fun c => c.userId == uid) with
    | some cart =>
      simp only [upsertCart, hc]
      split
      · exact hwf
      · split
        · refine ⟨?_, hwf.cartIdLt⟩
          intro ci hci
          obtain ⟨ci0, hci0, rfl⟩ := List.mem_map.mp hci
          obtain ⟨c, hcmem, hcid⟩ := hwf.itemCartExists ci0 hci0
          refine ⟨c, hcmem, ?_⟩
          by_cases hx : (ci0.cartId == cart.id && ci0.productId == pid) = true <;>
            simp [hx, hcid]
        · refine ⟨?_, hwf.cartIdLt⟩
          intro ci hci
          rcases List.mem_append.mp hci with h1 | h2
          · exact hwf.itemCartExists ci h1
          · have hci2 : ci = ⟨db.nextCartItemId, cart.id, pid, q⟩ := by simpa using h2
            subst hci2
            exact ⟨cart, List.mem_of_find?_eq_some hc, rfl⟩
    | none =>
      have hcarts : ∀ ci ∈ db.cartItems,
          ∃ c ∈ db.carts ++ [(⟨db.nextCartId, uid⟩ : CartRow)], c.id = ci.cartId := by
        intro ci hci
        obtain ⟨c, hcmem, hcid⟩ := hwf.itemCartExists ci hci
        exact ⟨c, List.mem_append_left _ hcmem, hcid⟩
      have hlt : ∀ c ∈ db.carts ++ [(⟨db.nextCartId, uid⟩ : CartRow)],
          c.id < db.nextCartId + 1 := by
        intro c hcmem
        rcases List.mem_append.mp hcmem with h1 | h2
        · have := hwf.cartIdLt c h1
          omega
        · have hc2 : c = ⟨db.nextCartId, uid⟩ := by simpa using h2
          subst hc2
          exact lt_add_one db.nextCartId
      simp only [upsertCart, hc]
      split
      · exact ⟨hcarts, hlt⟩
      · split
        · refine ⟨?_, hlt⟩
          intro ci hci
          obtain ⟨ci0, hci0, rfl⟩ := List.mem_map.mp hci
          obtain ⟨c, hcmem, hcid⟩ := hcarts ci0 hci0
          refine ⟨c, hcmem, ?_⟩
          by_cases hx : (ci0.cartId == (⟨db.nextCartId, uid⟩ : CartRow).id &&
              ci0.productId == pid) = true <;>
            simp [hx, hcid]
        · refine ⟨?_, hlt⟩
          intro ci hci
          rcases List.mem_append.mp hci with h1 | h2
          · obtain ⟨c, hcmem, hcid⟩ := hcarts ci h1
            exact ⟨c, hcmem, hcid⟩
          · have hci2 : ci = ⟨db.nextCartItemId, db.nextCartId, pid, q⟩ := by
              simpa using h2
            subst hci2
            exact ⟨⟨db.nextCartId, uid⟩,
              List.mem_append_right _ (List.mem_singleton.mpr rfl), rfl⟩

/-- C6: for an authenticated user and an existing product, `addItem`
creates the cart item with the given quantity when absent and
increments it when present; adding `q1` then `q2` leaves the same
quantity as a single add of `q1 + q2`. -/
theorem cartAddItem_merge
    (db : DB) (user : UserContext) (uid : String) (pid q1 q2 : Int)
    (hwf : db.WF) (huser : user.userId = some uid)
    (hq1 : 1 ≤ q1) (hq2 : 1 ≤ q2)
    (hp : ∃ p ∈ db.products, p.id = pid) :
    (cartQuantity db uid pid = none →
      cartQuantity (cartAddItem db user pid q1).1 uid pid = some q1) ∧
    (∀ n, cartQuantity db uid pid = some n →
      cartQuantity (cartAddItem db user pid q1).1 uid pid = some (n + q1)) ∧
    (cartQuantity (cartAddItem (cartAddItem db user pid q1).1 user pid q2).1 uid pid =
      cartQuantity (cartAddItem db user pid (q1 + q2)).1 uid pid) := by
  have hrun : ∀ (q : Int) (db0 : DB), cartAddItem db0 user pid q =
      cartAddItemBody pid q uid user.roles db0 := by
    intro q db0
    unfold cartAddItem
    exact runProtected_some huser _
  have h1 := cartAddItemBody_quantity db uid user.roles pid q1 hwf hq1 hp
  refine ⟨?_, ?_, ?_⟩
  · intro hnone
    rw [hrun, h1, hnone]
    simp
  · intro n hn
    rw [hrun, h1, hn]
    rfl
  · have hwf1 : ((cartAddItem db user pid q1).1).WF := by
      rw [hrun]
      exact cartAddItemBody_WF db uid user.roles pid q1 hwf
    have hp1 : ∃ p ∈ ((cartAddItem db user pid q1).1).products, p.id = pid := by
      rw [hrun, cartAddItemBody_products]
      exact hp
    have h2 := cartAddItemBody_quantity ((cartAddItem db user pid q1).1) uid
      user.roles pid q2 hwf1 hq2 hp1
    have h12 := cartAddItemBody_quantity db uid user.roles pid (q1 + q2) hwf
      (by omega) hp
    have g1 : cartQuantity (cartAddItem db user pid q1).1 uid pid =
        some ((cartQuantity db uid pid).getD 0 + q1) := by
      rw [hrun]
      exact h1
    have g2 : cartQuantity
        (cartAddItem (cartAddItem db user pid q1).1 user pid q2).1 uid pid =
        some ((cartQuantity (cartAddItem db user pid q1).1 uid pid).getD 0 + q2) := by
      rw [hrun]
      exact h2
    have g12 : cartQuantity (cartAddItem db user pid (q1 + q2)).1 uid pid =
        some ((cartQuantity db uid pid).getD 0 + (q1 + q2)) := by
      rw [hrun]
      exact h12
    rw [g2, g1, g12]
    simp [add_assoc]

theorem cartAddItem_merge_witness :
    cartQuantity (cartAddItem testDB ⟨some "cust", []⟩ 1 1).1 "cust" 1 = some 1 :=
  (cartAddItem_merge testDB ⟨some "cust", []⟩ "cust" 1 1 2
    ⟨by decide, by decide⟩ rfl (by decide) (by decide) (by decide)).1 rfl

theorem getCartBody_cartItems (db : DB) (uid : String) (roles : List RoleName) :
    ((getCartBody uid roles db).1).cartItems = db.cartItems := by
  unfold getCartBody
  split
  · rfl
  · rfl

theorem cartAddItemBody_keyUnique (db : DB) (uid : String) (roles : List RoleName)
    (pid q : Int) (hinv : cartKeyUnique db) :
    cartKeyUnique ((cartAddItemBody pid q uid roles db).1) := by
  unfold cartAddItemBody
  split
  · exact hinv
  · cases hc : db.carts.find? (fun c => c.userId == uid) with
    | some cart =>
      simp only [upsertCart, hc]
      split
      · exact hinv
      · split
        next existing hfind =>
          unfold cartKeyUnique at hinv ⊢
          rw [List.pairwise_map]
          refine hinv.imp ?_
          intro a b hab
          by_cases ha : (a.cartId == cart.id && a.productId == pid) = true <;>
            by_cases hb : (b.cartId == cart.id && b.productId == pid) = true <;>
              simpa [ha, hb] using hab
        next hfind =>
          unfold cartKeyUnique at hinv ⊢
          rw [List.pairwise_append]
          refine ⟨hinv, List.pairwise_singleton _ _, ?_⟩
          intro a ha b hb
          have hbeq : b = ⟨db.nextCartItemId, cart.id, pid, q⟩ := by simpa using hb
          subst hbeq
          have hpred := List.find?_eq_none.mp hfind a ha
          simp only [Bool.and_eq_true, beq_iff_eq, not_and] at hpred
          by_cases hca : a.cartId = cart.id
          · exact Or.inr (hpred hca)
          · exact Or.inl hca
    | none =>
      simp only [upsertCart, hc]
      split
      · exact hinv
      · split
        next existing hfind =>
          unfold cartKeyUnique at hinv ⊢
          rw [List.pairwise_map]
          refine hinv.imp ?_
          intro a b hab
          by_cases ha : (a.cartId == (⟨db.nextCartId, uid⟩ : CartRow).id &&
              a.productId == pid) = true <;>
            by_cases hb : (b.cartId == (⟨db.nextCartId, uid⟩ : CartRow).id &&
                b.productId == pid) = true <;>
              simpa [ha, hb] using hab
        next hfind =>
          unfold cartKeyUnique at hinv ⊢
          rw [List.pairwise_append]
          refine ⟨hinv, List.pairwise_singleton _ _, ?_⟩
          intro a ha b hb
          have hbeq : b = ⟨db.nextCartItemId, db.nextCartId, pid, q⟩ := by
            simpa using hb
          subst hbeq
          have hpred := List.find?_eq_none.mp hfind a ha
          simp only [Bool.and_eq_true, beq_iff_eq, not_and] at hpred
          by_cases hca : a.cartId = db.nextCartId
          · exact Or.inr (hpred (by simpa using hca))
          · exact Or.inl hca
    
theorem cartUpdateItemQuantityBody_keyUnique (db : DB) (uid : String)
    (roles : List RoleName) (ciid q : Int) (hinv : cartKeyUnique db) :
    cartKeyUnique ((cartUpdateItemQuantityBody ciid q uid roles db).1) := by
  unfold cartUpdateItemQuantityBody
  split
  · exact hinv
  · split
    · exact hinv
    · unfold cartKeyUnique at hinv ⊢
      rw [List.pairwise_map]
      refine hinv.imp ?_
      intro a b hab
      by_cases ha : (a.id == ciid) = true <;> by_cases hb : (b.id == ciid) = true <;>
        simpa [ha, hb] using hab

theorem cartRemoveItemBody_keyUnique (db : DB) (uid : String)
    (roles : List RoleName) (ciid : Int) (hinv : cartKeyUnique db) :
    cartKeyUnique ((cartRemoveItemBody ciid uid roles db).1) := by
  unfold cartRemoveItemBody
  split
  · exact hinv
  · split
    · exact hinv
    · split
      · exact hinv
      · exact List.Pairwise.sublist (List.filter_sublist _) hinv

theorem cartClearBody_keyUnique (db : DB) (uid : String)
    (roles : List RoleName) (hinv : cartKeyUnique db) :
    cartKeyUnique ((cartClearBody uid roles db).1) := by
  unfold cartClearBody
  split
  · exact hinv
  · exact List.Pairwise.sublist (List.filter_sublist _) hinv

/-- C8: every cart operation preserves the at-most-one-row-per
(cart, product) invariant. -/
theorem cartItem_key_unique_preserved
    (db : DB) (user : UserContext) (hinv : cartKeyUnique db) :
    cartKeyUnique (cartGetCart db user).1 ∧
    (∀ pid q, cartKeyUnique (cartAddItem db user pid q).1) ∧
    (∀ ciid q, cartKeyUnique (cartUpdateItemQuantity db user ciid q).1) ∧
    (∀ ciid, cartKeyUnique (cartRemoveItem db user ciid).1) ∧
    cartKeyUnique (cartClearCart db user).1 := by
  rcases huser : user.userId with _ | uid
  · unfold cartGetCart cartAddItem cartUpdateItemQuantity cartRemoveItem cartClearCart
    rw [runProtected_none huser]
    refine ⟨hinv, fun pid q => ?_, fun ciid q => ?_, fun ciid => ?_, ?_⟩ <;>
      rw [runProtected_none huser] <;> exact hinv
  · unfold cartGetCart cartAddItem cartUpdateItemQuantity cartRemoveItem cartClearCart
    rw [runProtected_some huser]
    refine ⟨?_, fun pid q => ?_, fun ciid q => ?_, fun ciid => ?_, ?_⟩
    · unfold cartKeyUnique
      rw [getCartBody_cartItems]
      exact hinv
    · rw [runProtected_some huser]
      exact cartAddItemBody_keyUnique db uid user.roles pid q hinv
    · rw [runProtected_some huser]
      exact cartUpdateItemQuantityBody_keyUnique db uid user.roles ciid q hinv
    · rw [runProtected_some huser]
      exact cartRemoveItemBody_keyUnique db uid user.roles ciid hinv
    · rw [runProtected_some huser]
      exact cartClearBody_keyUnique db uid user.roles hinv

theorem cartItem_key_unique_preserved_witness :
    cartKeyUnique (cartAddItem testDB ⟨some "cust", []⟩ 1 2).1 :=
  (cartItem_key_unique_preserved testDB ⟨some "cust", []⟩
    (List.Pairwise.nil)).2.1 1 2

theorem getCartBody_products (db : DB) (uid : String) (roles : List RoleName) :
    ((getCartBody uid roles db).1).products = db.products := by
  unfold getCartBody
  split
  · rfl
  · rfl

theorem cartUpdateItemQuantityBody_products (db : DB) (uid : String)
    (roles : List RoleName) (ciid q : Int) :
    ((cartUpdateItemQuantityBody ciid q uid roles db).1).products = db.products := by
  unfold cartUpdateItemQuantityBody
  split
  · rfl
  · split
    · rfl
    · rfl

theorem cartRemoveItemBody_products (db : DB) (uid : String)
    (roles : List RoleName) (ciid : Int) :
    ((cartRemoveItemBody ciid uid roles db).1).products = db.products := by
  unfold cartRemoveItemBody
  split
  · rfl
  · split
    · rfl
    · split
      · rfl
      · rfl

theorem cartClearBody_products (db : DB) (uid : String) (roles : List RoleName) :
    ((cartClearBody uid roles db).1).products = db.products := by
  unfold cartClearBody
  split
  · rfl
  · rfl

theorem productAddBody_nonneg (db : DB) (uid : String) (roles : List RoleName)
    (input : ProductInput) (hnn : stocksNonneg db) :
    stocksNonneg ((productAddBody input uid roles db).1) := by
  unfold productAddBody
  split
  · exact hnn
  next hval =>
    intro p hp
    rcases List.mem_append.mp hp with h1 | h2
    · exact hnn p h1
    · have hp2 : p = ⟨db.nextProductId, input.name, input.description,
          input.price, input.imageUrl, input.stock, uid⟩ := by simpa using h2
      subst hp2
      have hv : input.isValid = true := by simpa using hval
      unfold ProductInput.isValid at hv
      simp only [Bool.and_eq_true, decide_eq_true_eq] at hv
      exact hv.2

theorem productUpdateBody_nonneg (db : DB) (uid : String) (roles : List RoleName)
    (input : ProductUpdateInput) (hnn : stocksNonneg db) :
    stocksNonneg ((productUpdateBody input uid roles db).1) := by
  simp only [productUpdateBody]
  split
  · exact hnn
  next hval =>
    split
    · exact hnn
    · split
      · exact hnn
      · intro p hp
        obtain ⟨p0, hp0, rfl⟩ := List.mem_map.mp hp
        have hv : input.isValid = true := by simpa using hval
        unfold ProductUpdateInput.isValid at hv
        simp only [Bool.and_eq_true, decide_eq_true_eq] at hv
        by_cases hx : (p0.id == input.id) = true
        · have hall := hv.2
          show 0 ≤ (if (p0.id == input.id) = true then applyProductUpdate input p0
            else p0).stock
          rw [if_pos hx]
          unfold applyProductUpdate
          cases hs : input.stock with
          | none =>
            exact hnn p0 hp0
          | some s =>
            rw [hs] at hall
            simp only [Option.all_some, decide_eq_true_eq] at hall
            exact hall
        · show 0 ≤ (if (p0.id == input.id) = true then applyProductUpdate input p0
            else p0).stock
          rw [if_neg hx]
          exact hnn p0 hp0

theorem productDeleteBody_nonneg (db : DB) (uid : String) (roles : List RoleName)
    (pid : Int) (hnn : stocksNonneg db) :
    stocksNonneg ((productDeleteBody pid uid roles db).1) := by
  simp only [productDeleteBody]
  split
  · exact hnn
  · split
    · exact hnn
    · split
      · exact hnn
      · split
        · exact hnn
        · intro p hp
          exact hnn p (List.mem_filter.mp hp).1

theorem orderCreateBody_nonneg (db : DB) (uid : String) (roles : List RoleName)
    (input : CreateOrderInput)
    (hnd : (db.products.map Product.id).Nodup)
    (hnn : stocksNonneg db) :
    stocksNonneg ((orderCreateBody input uid roles db).1) := by
  rcases hres : orderCreateBody input uid roles db with ⟨db', r⟩
  cases r with
  | error e =>
    have heq := orderCreateBody_error hres
    show stocksNonneg db'
    rw [heq]
    exact hnn
  | ok order =>
    obtain ⟨hval, hlen, total, data, hco, horder, hdb'⟩ := orderCreateBody_ok_spec hres
    obtain ⟨hnodup, hexists⟩ := filter_length_eq_nodup_and_mem hnd hlen
    obtain ⟨_, _, hstock⟩ := computeOrderItems_ok hco
    rw [decrementStock_eq] at hdb'
    subst hdb'
    intro p' hp'
    dsimp only at hp'
    obtain ⟨p, hpmem, rfl⟩ := List.mem_map.mp hp'
    show 0 ≤ p.stock - qtyOf input.items p.id
    by_cases hin : p.id ∈ input.items.map (·.productId)
    · obtain ⟨it, hit, hitid⟩ := List.mem_map.mp hin
      have hq : qtyOf input.items p.id = it.quantity := by
        rw [← hitid]
        exact qtyOf_eq_of_nodup hnodup hit
      obtain ⟨pf, hpf, hple⟩ := hstock it hit
      rw [find_in_filtered (List.mem_map_of_mem _ hit)] at hpf
      have hfp2 := find_of_mem_of_nodup hnd hpmem
      rw [← hitid] at hfp2
      rw [hfp2] at hpf
      cases hpf
      rw [hq]
      omega
    · have hq : qtyOf input.items p.id = 0 :=
        qtyOf_eq_zero (fun i hi he => hin (he ▸ List.mem_map_of_mem _ hi))
      rw [hq]
      have := hnn p hpmem
      omega

theorem runRoleBased_cases {α : Type} (allowed : List RoleName) (db : DB)
    (user : UserContext) (body : ProcBody α) :
    (runRoleBased allowed db user body).1 = db ∨
    ∃ uid, runRoleBased allowed db user body = body uid user.roles db := by
  rcases huser : user.userId with _ | uid
  · left
    unfold runRoleBased
    rw [runProtected_none huser]
  · unfold runRoleBased
    rw [runProtected_some huser]
    by_cases hacc : hasAccess allowed user.roles = true
    · right
      exact ⟨uid, if_pos hacc⟩
    · left
      rw [if_neg hacc]

theorem runProtected_cases {α : Type} (db : DB) (user : UserContext)
    (body : ProcBody α) :
    (runProtected db user body).1 = db ∨
    ∃ uid, runProtected db user body = body uid user.roles db := by
  rcases huser : user.userId with _ | uid
  · left
    rw [runProtected_none huser]
  · right
    exact ⟨uid, runProtected_some huser _⟩

/-- C7: from a state with non-negative stock, every exposed operation
(product add/update/delete, order creation, all cart operations)
leaves every product's stock non-negative. -/
theorem stock_nonneg_preserved
    (db : DB) (user : UserContext)
    (hnd : (db.products.map Product.id).Nodup)
    (hnn : stocksNonneg db) :
    (∀ input, stocksNonneg (productAdd db user input).1) ∧
    (∀ input, stocksNonneg (productUpdate db user input).1) ∧
    (∀ pid, stocksNonneg (productDelete db user pid).1) ∧
    (∀ input, stocksNonneg (orderCreate db user input).1) ∧
    stocksNonneg (cartGetCart db user).1 ∧
    (∀ pid q, stocksNonneg (cartAddItem db user pid q).1) ∧
    (∀ ciid q, stocksNonneg (cartUpdateItemQuantity db user ciid q).1) ∧
    (∀ ciid, stocksNonneg (cartRemoveItem db user ciid).1) ∧
    stocksNonneg (cartClearCart db user).1 := by
  refine ⟨fun input => ?_, fun input => ?_, fun pid => ?_, fun input => ?_,
    ?_, fun pid q => ?_, fun ciid q => ?_, fun ciid => ?_, ?_⟩
  · unfold productAdd runSeller
    rcases runRoleBased_cases _ db user (productAddBody input) with h | ⟨uid, h⟩
    · rw [h]; exact hnn
    · rw [h]; exact productAddBody_nonneg db uid user.roles input hnn
  · unfold productUpdate runSeller
    rcases runRoleBased_cases _ db user (productUpdateBody input) with h | ⟨uid, h⟩
    · rw [h]; exact hnn
    · rw [h]; exact productUpdateBody_nonneg db uid user.roles input hnn
  · unfold productDelete runSeller
    rcases runRoleBased_cases _ db user (productDeleteBody pid) with h | ⟨uid, h⟩
    · rw [h]; exact hnn
    · rw [h]; exact productDeleteBody_nonneg db uid user.roles pid hnn
  · unfold orderCreate runCustomer
    rcases runProtected_cases db user (orderCreateBody input) with h | ⟨uid, h⟩
    · rw [h]; exact hnn
    · rw [h]; exact orderCreateBody_nonneg db uid user.roles input hnd hnn
  · unfold cartGetCart
    rcases runProtected_cases db user getCartBody with h | ⟨uid, h⟩
    · rw [h]; exact hnn
    · rw [h]
      unfold stocksNonneg
      rw [getCartBody_products]
      exact hnn
  · unfold cartAddItem
    rcases runProtected_cases db user (cartAddItemBody pid q) with h | ⟨uid, h⟩
    · rw [h]; exact hnn
    · rw [h]
      unfold stocksNonneg
      rw [cartAddItemBody_products]
      exact hnn
  · unfold cartUpdateItemQuantity
    rcases runProtected_cases db user (cartUpdateItemQuantityBody ciid q) with h | ⟨uid, h⟩
    · rw [h]; exact hnn
    · rw [h]
      unfold stocksNonneg
      rw [cartUpdateItemQuantityBody_products]
      exact hnn
  · unfold cartRemoveItem
    rcases runProtected_cases db user (cartRemoveItemBody ciid) with h | ⟨uid, h⟩
    · rw [h]; exact hnn
    · rw [h]
      unfold stocksNonneg
      rw [cartRemoveItemBody_products]
      exact hnn
  · unfold cartClearCart
    rcases runProtected_cases db user cartClearBody with h | ⟨uid, h⟩
    · rw [h]; exact hnn
    · rw [h]
      unfold stocksNonneg
      rw [cartClearBody_products]
      exact hnn

theorem stock_nonneg_preserved_witness :
    stocksNonneg (productAdd testDB ⟨some "seller1", [RoleName.SELLER]⟩
      ⟨"Lamp", "A sturdy desk lamp", 2, none, 7⟩).1 :=
  (stock_nonneg_preserved testDB ⟨some "seller1", [RoleName.SELLER]⟩
    (by decide) (by unfold stocksNonneg; decide)).1
    ⟨"Lamp", "A sturdy desk lamp", 2, none, 7⟩
